import Mathlib

/-!
Verification development for the sketch-helper editing engine.

The Python sources are shallowly embedded:
* `drawing/serialization.py`  — the structural codec (`Serialization` namespace);
* `drawing/scene.py`          — the scene state, its internal clipboard codec,
  paste, and the SELECT-gesture handling (`Scene` namespace);
* `drawing/commands.py`       — the three undoable commands and a model of
  `QUndoStack` with macros;
* `assistant/…`               — the wizard, the suggestion catalog and the
  controller ghost-preview flow.

Numbers are rationals (Python floats are used only for exact small arithmetic
on these paths).  Python dicts holding serialized records are embedded as a
structure of `Option` fields: a `none` field is an absent key (keys that are
never consulted by the code, such as unknown keys in pasted JSON, are
dropped).  Python exceptions (KeyError from `data["k"]`) are embedded with
`Except`.  Qt item objects are identified by a natural-number id; the mutable
attribute store is a total map from ids to `Item` values.
-/

namespace SketchHelper

abbrev Pos := ℚ × ℚ

/-- The five supported `QGraphicsItem` kinds and their local geometry.
A `path` lists the coordinates of the `QPainterPath` elements (the app only
ever creates a leading MoveTo followed by LineTo elements). -/
inductive Geometry
  | line (x1 y1 x2 y2 : ℚ)
  | rect (x y w h : ℚ)
  | ellipse (x y w h : ℚ)
  | path (pts : List Pos)
  | polygon (pts : List Pos)
  deriving DecidableEq, Repr

/-- A `QBrush`: either `Qt.NoBrush` or a color (hex name + alpha 0..255). -/
inductive Brush
  | noBrush
  | colorBrush (hex : String) (alpha : ℕ)
  deriving DecidableEq, Repr

/-- The attributes of one scene item that the embedded code reads or writes.
`stroke`/`strokeWidth` are the pen; `tag` is `item.data(Qt.UserRole)`. -/
structure Item where
  geom : Geometry
  pos : Pos
  stroke : String
  strokeWidth : ℤ
  brush : Brush
  z : ℚ
  tag : Option String
  selectable : Bool
  movable : Bool
  enabled : Bool
  opacity : ℚ
  selected : Bool
  deriving DecidableEq, Repr

/-- Etype marker stored with each serialized path element: the codec module
writes the strings `"MoveTo"`/`"LineTo"`, the scene serializer writes
`int(e.type)`. -/
inductive ElemTag
  | name (s : String)
  | code (n : ℤ)
  deriving DecidableEq, Repr

/-- A serialized record (a JSON-friendly Python dict); `none` = absent key. -/
structure Record where
  rtype : Option String := none
  pos : Option Pos := none
  stroke : Option String := none
  strokeWidth : Option ℤ := none
  fill : Option String := none
  z : Option ℚ := none
  line : Option (ℚ × ℚ × ℚ × ℚ) := none
  rect : Option (ℚ × ℚ × ℚ × ℚ) := none
  ellipse : Option (ℚ × ℚ × ℚ × ℚ) := none
  pathElems : Option (List (ℚ × ℚ × ElemTag)) := none
  polygon : Option (List Pos) := none
  assistantTag : Option String := none
  deriving DecidableEq, Repr

/-- A Python exception escaping an embedded function. -/
inductive PyErr
  | keyError (k : String)
  deriving DecidableEq, Repr

/-- `type(item).__name__` for each geometry variant. -/
def typeName : Geometry → String
  | .line _ _ _ _ => "QGraphicsLineItem"
  | .rect _ _ _ _ => "QGraphicsRectItem"
  | .ellipse _ _ _ _ => "QGraphicsEllipseItem"
  | .path _ => "QGraphicsPathItem"
  | .polygon _ => "QGraphicsPolygonItem"

namespace Serialization

/-- `serialize_item`'s fill capture: `"none"` unless the brush style is not
NoBrush and the color's alpha is nonzero. -/
def fillField : Brush → String
  | .noBrush => "none"
  | .colorBrush hex alpha => if alpha ≠ 0 then hex else "none"

/-- Path elements as written by `serialize_item`: `"MoveTo"` for index 0,
`"LineTo"` for every later index. -/
def pathElemsOf : List Pos → List (ℚ × ℚ × ElemTag)
  | [] => []
  | p :: rest =>
      (p.1, p.2, .name "MoveTo") :: rest.map (fun q => (q.1, q.2, .name "LineTo"))

/-- `drawing/serialization.py: serialize_item`.  `QGraphicsLineItem` has no
`brush` attribute, so the `hasattr` test makes a line's fill `"none"`; only
the polygon branch stores `assistant_tag`. -/
def serialize_item (item : Item) : Option Record :=
  let fill : String :=
    match item.geom with
    | .line _ _ _ _ => "none"
    | _ => fillField item.brush
  let base : Record :=
    { rtype := some (typeName item.geom), pos := some item.pos,
      stroke := some item.stroke, strokeWidth := some item.strokeWidth,
      fill := some fill, z := some item.z }
  match item.geom with
  | .line x1 y1 x2 y2 => some { base with line := some (x1, y1, x2, y2) }
  | .rect x y w h => some { base with rect := some (x, y, w, h) }
  | .ellipse x y w h => some { base with ellipse := some (x, y, w, h) }
  | .path pts => some { base with pathElems := some (pathElemsOf pts) }
  | .polygon pts =>
      some { base with polygon := some pts, assistantTag := item.tag }

/-- `apply_fill_from`: `"none"` sets NoBrush, anything else a full-alpha
color brush. -/
def apply_fill_from (fill : String) : Brush :=
  if fill = "none" then .noBrush else .colorBrush fill 255

/-- The attributes shared by every freshly decoded item before the
type-specific geometry is attached: z from the record (default 0),
interaction flags enabled, position applied, Qt defaults elsewhere. -/
def decodedBase (data : Record) (geom : Geometry) (brush : Brush)
    (tag : Option String) : Item :=
  { geom := geom,
    pos := data.pos.getD (0, 0),
    stroke := data.stroke.getD "#000000",
    strokeWidth := data.strokeWidth.getD 1,
    brush := brush,
    z := data.z.getD 0,
    tag := tag,
    selectable := true,
    movable := true,
    enabled := true,
    opacity := 1,
    selected := false }

/-- `drawing/serialization.py: deserialize_item`.  Branches index the dict
directly for line/rect/ellipse geometry (`data["line"]` raises KeyError when
absent) but use `.get` with defaults for path and polygon geometry. -/
def deserialize_item (data : Record) : Except PyErr (Option Item) :=
  let t := data.rtype
  let fill := data.fill.getD "none"
  if t = some "QGraphicsLineItem" then
    match data.line with
    | none => .error (.keyError "line")
    | some (x1, y1, x2, y2) =>
        .ok (some (decodedBase data (.line x1 y1 x2 y2) .noBrush none))
  else if t = some "QGraphicsRectItem" then
    match data.rect with
    | none => .error (.keyError "rect")
    | some (x, y, w, h) =>
        .ok (some (decodedBase data (.rect x y w h) (apply_fill_from fill) none))
  else if t = some "QGraphicsEllipseItem" then
    match data.ellipse with
    | none => .error (.keyError "ellipse")
    | some (x, y, w, h) =>
        .ok (some (decodedBase data (.ellipse x y w h) (apply_fill_from fill) none))
  else if t = some "QGraphicsPathItem" then
    match data.pathElems.getD [] with
    | [] => .ok none
    | elems =>
        .ok (some (decodedBase data (.path (elems.map (fun e => (e.1, e.2.1))))
          .noBrush none))
  else if t = some "QGraphicsPolygonItem" then
    let pts := data.polygon.getD []
    .ok (some (decodedBase data (.polygon pts) (apply_fill_from fill)
      data.assistantTag))
  else
    .ok none

end Serialization

namespace Scene

/-- `DrawingScene._serialize_item`'s fill capture: only the NoBrush style is
checked (`b.style() != 0`); a zero-alpha color still encodes as its hex. -/
def sceneFillField : Brush → String
  | .noBrush => "none"
  | .colorBrush hex _ => hex

/-- Path elements as written by `DrawingScene._serialize_item`: the raw
`int(e.type)` codes (0 = MoveTo for the leading element, 1 = LineTo). -/
def scenePathElemsOf : List Pos → List (ℚ × ℚ × ElemTag)
  | [] => []
  | p :: rest =>
      (p.1, p.2, .code 0) :: rest.map (fun q => (q.1, q.2, .code 1))

/-- `DrawingScene._serialize_item`: same shape as the codec module but with
no `"z"` key, no polygon branch, no `assistant_tag`, and the
style-only fill check. -/
def serialize_item (item : Item) : Option Record :=
  let fill : String :=
    match item.geom with
    | .line _ _ _ _ => "none"
    | _ => sceneFillField item.brush
  let base : Record :=
    { rtype := some (typeName item.geom), pos := some item.pos,
      stroke := some item.stroke, strokeWidth := some item.strokeWidth,
      fill := some fill }
  match item.geom with
  | .line x1 y1 x2 y2 => some { base with line := some (x1, y1, x2, y2) }
  | .rect x y w h => some { base with rect := some (x, y, w, h) }
  | .ellipse x y w h => some { base with ellipse := some (x, y, w, h) }
  | .path pts => some { base with pathElems := some (scenePathElemsOf pts) }
  | .polygon _ => none

/-- Shared tail of `DrawingScene._deserialize_item`: no z restoration, flags
enabled, position applied. -/
def sceneDecodedBase (data : Record) (geom : Geometry) (brush : Brush) : Item :=
  { geom := geom,
    pos := data.pos.getD (0, 0),
    stroke := data.stroke.getD "#000000",
    strokeWidth := data.strokeWidth.getD 1,
    brush := brush,
    z := 0,
    tag := none,
    selectable := true,
    movable := true,
    enabled := true,
    opacity := 1,
    selected := false }

/-- `DrawingScene._deserialize_item`: `data["type"]`, `data["pos"]` and the
geometry fields are indexed directly (KeyError when absent); there is no
polygon branch and the record's `"z"` is never read. -/
def deserialize_item (data : Record) : Except PyErr (Option Item) :=
  match data.rtype with
  | none => .error (.keyError "type")
  | some t =>
  if data.pos = none then
    .error (.keyError "pos")
  else
  let fill := data.fill.getD "none"
  if t = "QGraphicsLineItem" then
    match data.line with
    | none => .error (.keyError "line")
    | some (x1, y1, x2, y2) =>
        .ok (some (sceneDecodedBase data (.line x1 y1 x2 y2) .noBrush))
  else if t = "QGraphicsRectItem" then
    match data.rect with
    | none => .error (.keyError "rect")
    | some (x, y, w, h) =>
        .ok (some (sceneDecodedBase data (.rect x y w h)
          (Serialization.apply_fill_from fill)))
  else if t = "QGraphicsEllipseItem" then
    match data.ellipse with
    | none => .error (.keyError "ellipse")
    | some (x, y, w, h) =>
        .ok (some (sceneDecodedBase data (.ellipse x y w h)
          (Serialization.apply_fill_from fill)))
  else if t = "QGraphicsPathItem" then
    match data.pathElems with
    | none => .error (.keyError "path_elems")
    | some [] => .ok none
    | some elems =>
        .ok (some (sceneDecodedBase data (.path (elems.map (fun e => (e.1, e.2.1))))
          .noBrush))
  else
    .ok none

end Scene

/-- Qt item objects are identified by a natural number. -/
abbrev ItemId := ℕ

/-- The scene's live state: `order` is the list of item ids currently added
to the scene (insertion order); `itemOf` is the attribute store of every item
object ever created, in or out of the scene (Qt items persist after
`removeItem`; the command log keeps references to them). -/
structure SceneSt where
  order : List ItemId
  itemOf : ItemId → Item

namespace SceneSt

/-- `scene.addItem(it)`: a no-op when the item is already in the scene,
otherwise the item becomes a live member. -/
def addItem (sc : SceneSt) (i : ItemId) (it : Item) : SceneSt :=
  if i ∈ sc.order then sc
  else { order := sc.order ++ [i], itemOf := fun j => if j = i then it else sc.itemOf j }

/-- `scene.removeItem(it)`: the item leaves the live set; its attributes
persist on the object. -/
def removeItem (sc : SceneSt) (i : ItemId) : SceneSt :=
  { sc with order := sc.order.filter (fun j => j ≠ i) }

/-- Mutate one item object's attributes. -/
def updateItem (sc : SceneSt) (i : ItemId) (f : Item → Item) : SceneSt :=
  { sc with itemOf := fun j => if j = i then f (sc.itemOf i) else sc.itemOf j }

/-- `item.setPos(p)`. -/
def setPos (sc : SceneSt) (i : ItemId) (p : Pos) : SceneSt :=
  sc.updateItem i (fun it => { it with pos := p })

/-- `item.setSelected(b)`: selecting requires the ItemIsSelectable flag;
deselecting always works. -/
def setSelected (sc : SceneSt) (i : ItemId) (b : Bool) : SceneSt :=
  if b && !(sc.itemOf i).selectable then sc
  else sc.updateItem i (fun it => { it with selected := b })

/-- `scene.selectedItems()`: the live items whose selected state is on. -/
def selectedItems (sc : SceneSt) : List ItemId :=
  sc.order.filter (fun i => (sc.itemOf i).selected)

/-- `scene.clearSelection()`. -/
def clearSelection (sc : SceneSt) : SceneSt :=
  sc.order.foldl (fun s i => s.setSelected i false) sc

end SceneSt

/-- The three undoable commands of `drawing/commands.py`, with the state they
hold.  `add`'s `firstRedo` is the `_first_redo` flag (true right after
construction with `already_in_scene=True`); `remove` holds the position
captured at construction; `move` holds the item list and both position
snapshots (the Python dicts, as total maps over the listed ids). -/
inductive Cmd
  | add (item : ItemId) (firstRedo : Bool)
  | remove (item : ItemId) (pos : Pos)
  | move (items : List ItemId) (oldPositions newPositions : ItemId → Pos)

namespace Cmd

/-- `redo`: may mutate the command (`add` consumes its first-redo flag). -/
def redo (sc : SceneSt) : Cmd → Cmd × SceneSt
  | .add i first =>
      if first then (.add i false, sc)
      else (.add i first, if i ∈ sc.order then sc else sc.addItem i (sc.itemOf i))
  | .remove i p => (.remove i p, sc.removeItem i)
  | .move items oldP newP =>
      (.move items oldP newP, items.foldl (fun s j => s.setPos j (newP j)) sc)

/-- `undo` (no command mutates on undo; `remove.undo` re-adds only when the
item is not live and restores the captured position). -/
def undo (sc : SceneSt) : Cmd → SceneSt
  | .add i _ => sc.removeItem i
  | .remove i p =>
      if i ∈ sc.order then sc else (sc.addItem i (sc.itemOf i)).setPos i p
  | .move items oldP _ => items.foldl (fun s j => s.setPos j (oldP j)) sc

/-- The ids a command covers (the `items` list for a move). -/
def coveredItems : Cmd → List ItemId
  | .add i _ => [i]
  | .remove i _ => [i]
  | .move items _ _ => items

end Cmd

/-- A model of `QUndoStack` with macros.  A stack entry is the command group
of one user-visible undo unit (a singleton for a plain push).  `done` is the
applied prefix, most recent first; `undone` is the redoable tail; while a
macro is open, pushed commands collect in `macroCmds` instead. -/
structure UndoStack where
  done : List (List Cmd) := []
  undone : List (List Cmd) := []
  macroCmds : Option (List Cmd) := none

namespace UndoStack

/-- `QUndoStack.push(cmd)`: executes the command's `redo` immediately,
truncates the redoable tail, and appends either to the open macro or as a
top-level entry. -/
def push (stack : UndoStack) (c : Cmd) (sc : SceneSt) : UndoStack × SceneSt :=
  let r := c.redo sc
  match stack.macroCmds with
  | some m => ({ stack with macroCmds := some (m ++ [r.1]), undone := [] }, r.2)
  | none => ({ stack with done := [r.1] :: stack.done, undone := [] }, r.2)

/-- `beginMacro` (the app never nests macros). -/
def macroBegin (stack : UndoStack) : UndoStack :=
  { stack with macroCmds := some [], undone := [] }

/-- `endMacro`: the collected group becomes one stack entry. -/
def macroEnd (stack : UndoStack) : UndoStack :=
  match stack.macroCmds with
  | some m => { stack with done := m :: stack.done, macroCmds := none }
  | none => stack

/-- One user `undo`: reverses the most recent entry's commands in reverse
order, as one atomic unit. -/
def undoStep (stack : UndoStack) (sc : SceneSt) : UndoStack × SceneSt :=
  match stack.done with
  | [] => (stack, sc)
  | e :: rest =>
      ({ stack with done := rest, undone := e :: stack.undone },
       e.reverse.foldl (fun s c => c.undo s) sc)

end UndoStack

/-- The mutable state the embedded flows touch: the scene, its undo stack,
the controller's ghost list (`_ghost_items`), the controller's
session-suppression set (`_auto_suppressed`), and a fresh-id counter
modelling Python object creation. -/
structure AppState where
  scene : SceneSt
  stack : UndoStack
  ghosts : List ItemId := []
  autoSuppressed : List String := []
  nextId : ItemId

namespace Scene

/-- The outcome of `json.loads` + `data.get("items", [])` on the clipboard
text: not JSON at all (the `except` branch), JSON without an `"items"` key,
or JSON with a record list. -/
inductive ClipParse
  | notJson
  | json (items : Option (List Record))

/-- The paste loop body applied to one already-decoded item: offset by the
default (10, 10), add to the scene, push an already-present Add. -/
def pasteOne (st : AppState) (it : Item) : AppState × ItemId :=
  let it2 := { it with pos := (it.pos.1 + 10, it.pos.2 + 10) }
  let i := st.nextId
  let sc1 := st.scene.addItem i it2
  let pr := st.stack.push (.add i true) sc1
  ({ st with scene := pr.2, stack := pr.1, nextId := i + 1 }, i)

/-- The decode-insert loop of `DrawingScene.paste` over the record list;
decoder exceptions propagate (they are not caught by `paste`). -/
def pasteLoop (st : AppState) : List Record → List ItemId →
    Except PyErr (AppState × List ItemId)
  | [], acc => .ok (st, acc)
  | r :: rest, acc => do
      match ← deserialize_item r with
      | none => pasteLoop st rest acc
      | some it =>
          let (st2, i) := pasteOne st it
          pasteLoop st2 rest (acc ++ [i])

/-- `DrawingScene.paste` with the default offset: a non-JSON clipboard is an
early `return`; otherwise each record is decoded, offset, inserted and made
undoable, and at the end the selection is replaced by the new items. -/
def paste (st : AppState) (clip : ClipParse) : Except PyErr AppState := do
  match clip with
  | .notJson => .ok st
  | .json items =>
      let itemsData := items.getD []
      let (st2, newItems) ← pasteLoop st itemsData []
      let sc1 := st2.scene.clearSelection
      let sc2 := newItems.foldl (fun s i => s.setSelected i true) sc1
      .ok { st2 with scene := sc2 }

/-- The press-time capture of `mousePressEvent` (SELECT branch):
`{it: it.pos() for it in self.selectedItems()}` taken after Qt's own
selection handling has run. -/
def captureOldPositions (sc : SceneSt) : List (ItemId × Pos) :=
  sc.selectedItems.map (fun i => (i, (sc.itemOf i).pos))

/-- Qt's drag behaviour between press and release: every selected item with
the ItemIsMovable flag moves by the pointer delta (nothing moves when the
press did not start a drag). -/
def dragMove (sc : SceneSt) (d : Pos) : SceneSt :=
  sc.order.foldl
    (fun s i =>
      if (s.itemOf i).selected && (s.itemOf i).movable then
        s.setPos i ((s.itemOf i).pos.1 + d.1, (s.itemOf i).pos.2 + d.2)
      else s)
    sc

/-- The release-time "after" snapshot:
`{it: it.pos() for it in selected if it in old}` — every still-selected item
that was captured at press time, moved or not. -/
def releaseNewPositions (st : AppState) (old : List (ItemId × Pos)) :
    List (ItemId × Pos) :=
  st.scene.selectedItems.filterMap
    (fun i =>
      if (old.lookup i).isSome then some (i, (st.scene.itemOf i).pos) else none)

/-- `changed`: some entry of the after snapshot differs from the before
snapshot. -/
def releaseChanged (st : AppState) (old : List (ItemId × Pos)) : Bool :=
  (releaseNewPositions st old).any (fun ip => old.lookup ip.1 ≠ some ip.2)

/-- The MoveItemsCommand built at release: covers all keys of the after
snapshot. -/
def releaseMoveCmd (st : AppState) (old : List (ItemId × Pos)) : Cmd :=
  .move ((releaseNewPositions st old).map Prod.fst)
    (fun i => (old.lookup i).getD (0, 0))
    (fun i => ((releaseNewPositions st old).lookup i).getD (0, 0))

/-- `mouseReleaseEvent` (SELECT branch): push one MoveItemsCommand when the
pointer moved more than 2 units (Manhattan), the press-time capture was
non-empty, and some still-selected captured item's position changed. -/
def selectRelease (st : AppState) (pressPos releasePos : Pos)
    (old : List (ItemId × Pos)) : AppState :=
  let dx := releasePos.1 - pressPos.1
  let dy := releasePos.2 - pressPos.2
  if |dx| + |dy| > 2 then
    if old = [] then st
    else
      if releaseChanged st old then
        let pr := st.stack.push (releaseMoveCmd st old) st.scene
        { st with stack := pr.1, scene := pr.2 }
      else st
  else st

/-- A whole SELECT gesture: capture at press (after selection handling),
Qt-side drag of the selected movable items when the press grabbed an item,
then the release handler. -/
def selectGesture (st : AppState) (pressPos releasePos : Pos)
    (dragging : Bool) : AppState :=
  let old := captureOldPositions st.scene
  let sc1 :=
    if dragging then
      dragMove st.scene (releasePos.1 - pressPos.1, releasePos.2 - pressPos.2)
    else st.scene
  selectRelease { st with scene := sc1 } pressPos releasePos old

end Scene

namespace Tools

/-- `_apply_fill`: the scene's current fill (`None` = no brush). -/
def shapeFill : Option String → Brush
  | none => .noBrush
  | some c => .colorBrush c 255

/-- The item created by `mousePressEvent` for PEN: a one-point path seeded at
the press position, current stroke color with width 2, interaction flags
enabled before insertion. -/
def penPressItem (strokeColor : String) (p : Pos) : Item :=
  { geom := .path [p], pos := (0, 0), stroke := strokeColor, strokeWidth := 2,
    brush := .noBrush, z := 0, tag := none, selectable := true, movable := true,
    enabled := true, opacity := 1, selected := false }

/-- The item created by `mousePressEvent` for LINE: a degenerate segment at
the anchor. -/
def linePressItem (strokeColor : String) (p : Pos) : Item :=
  { geom := .line p.1 p.2 p.1 p.2, pos := (0, 0), stroke := strokeColor,
    strokeWidth := 2, brush := .noBrush, z := 0, tag := none, selectable := true,
    movable := true, enabled := true, opacity := 1, selected := false }

/-- The item created by `mousePressEvent` for RECT: an empty rectangle at the
anchor, with the current fill applied. -/
def rectPressItem (strokeColor : String) (fillColor : Option String) (p : Pos) : Item :=
  { geom := .rect p.1 p.2 0 0, pos := (0, 0), stroke := strokeColor,
    strokeWidth := 2, brush := shapeFill fillColor, z := 0, tag := none,
    selectable := true, movable := true, enabled := true, opacity := 1,
    selected := false }

/-- The item created by `mousePressEvent` for ELLIPSE. -/
def ellipsePressItem (strokeColor : String) (fillColor : Option String) (p : Pos) : Item :=
  { geom := .ellipse p.1 p.2 0 0, pos := (0, 0), stroke := strokeColor,
    strokeWidth := 2, brush := shapeFill fillColor, z := 0, tag := none,
    selectable := true, movable := true, enabled := true, opacity := 1,
    selected := false }

end Tools

namespace Catalog

/-- `_default_pen(width)` is a default (black) pen of the given width; a bare
item fresh from its constructor with that pen. -/
def catalogItem (g : Geometry) : Item :=
  { geom := g, pos := (0, 0), stroke := "#000000", strokeWidth := 2,
    brush := .noBrush, z := 0, tag := none, selectable := false, movable := false,
    enabled := true, opacity := 1, selected := false }

/-- The raw item lists of `create_generation_item` before the final
flag-enabling loop (for `body_truck` the source really returns only the cab
and the bed, dropping the `body` it built). -/
def rawGenerationItems (category : String) (itemId : String) : List Item :=
  if category = "Porte" then
    if itemId = "door_small" then
      [catalogItem (.rect 0 0 60 100), catalogItem (.ellipse 45 50 8 8)]
    else if itemId = "door_double" then
      [catalogItem (.rect 0 0 50 110), catalogItem (.rect 52 0 50 110)]
    else if itemId = "door_round" then
      [catalogItem (.rect 0 20 70 90), catalogItem (.ellipse 0 0 70 40)]
    else []
  else if category = "Roue" then
    if itemId = "wheel_small" then [catalogItem (.ellipse 0 0 50 50)]
    else if itemId = "wheel_big" then [catalogItem (.ellipse 0 0 80 80)]
    else if itemId = "wheel_spoked" then
      [catalogItem (.ellipse 0 0 70 70), catalogItem (.line 0 35 70 35),
       catalogItem (.line 35 0 35 70)]
    else []
  else if category = "Carrosserie" then
    if itemId = "body_compact" then
      [catalogItem (.rect 0 20 140 50), catalogItem (.rect 30 0 60 30)]
    else if itemId = "body_sedan" then
      [catalogItem (.rect 0 25 180 50), catalogItem (.rect 50 0 80 35)]
    else if itemId = "body_truck" then
      [catalogItem (.rect 0 0 60 35), catalogItem (.rect 65 10 135 70)]
    else []
  else []

/-- `assistant/generation_catalog.py: create_generation_item`: builds the raw
items, then enables the interaction flags on each. -/
def create_generation_item (category : String) (itemId : String) : List Item :=
  (rawGenerationItems category itemId).map
    (fun it => { it with selectable := true, movable := true })

end Catalog

namespace Assistant

def TAG_CAT_EAR : String := "assistant:cat_ear"

def TAG_ROOF_TRIANGLE : String := "assistant:roof_triangle"

/-- The two suggestion catalog entries. -/
inductive SuggestionKind
  | catEars
  | roofTriangle
  deriving DecidableEq, Repr

/-- `assistant/suggestions.py: Suggestion` (the `create_fn` is dispatched on
the kind below). -/
structure Suggestion where
  label : String
  kind : SuggestionKind
  previewPath : Option String
  deriving DecidableEq, Repr

def isEllipseItem (it : Item) : Bool :=
  match it.geom with
  | .ellipse _ _ _ _ => true
  | _ => false

def isRectItem (it : Item) : Bool :=
  match it.geom with
  | .rect _ _ _ _ => true
  | _ => false

/-- A fresh assistant polygon item with a default-color pen of width 2 and
the given tag; the interaction flags are enabled by `suggestions.py`
(`setFlag(..., True)`). -/
def assistantPolygon (pts : List Pos) (brush : Brush) (tag : String) : Item :=
  { geom := .polygon pts, pos := (0, 0), stroke := "#000000", strokeWidth := 2,
    brush := brush, z := 0, tag := some tag, selectable := true, movable := true,
    enabled := true, opacity := 1, selected := false }

/-- `make_cat_ears_for_first_ellipse`: two triangles above the first ellipse
found in the scene.  `sceneBoundingRect` is modelled as the local rect
translated by the item position (the pen-width margin is not modelled; no
claim depends on the ear coordinates). -/
def make_cat_ears_for_first_ellipse (sc : SceneSt) : List Item :=
  match sc.order.find? (fun i => isEllipseItem (sc.itemOf i)) with
  | none => []
  | some i =>
      let it := sc.itemOf i
      match it.geom with
      | .ellipse x y w h =>
          let l := x + it.pos.1
          let t := y + it.pos.2
          let leftEar : List Pos :=
            [(l + w * 25 / 100, t), (l + w * 15 / 100, t - h * 35 / 100),
             (l + w * 35 / 100, t)]
          let rightEar : List Pos :=
            [(l + w * 75 / 100, t), (l + w * 85 / 100, t - h * 35 / 100),
             (l + w * 65 / 100, t)]
          [assistantPolygon leftEar .noBrush TAG_CAT_EAR,
           assistantPolygon rightEar .noBrush TAG_CAT_EAR]
      | _ => []

/-- `make_roof_triangle_for_first_rect`: the target is the first rect with a
black pen if one exists, otherwise the first rect. -/
def make_roof_triangle_for_first_rect (sc : SceneSt) : List Item :=
  let target :=
    match sc.order.find? (fun i =>
        isRectItem (sc.itemOf i) && (sc.itemOf i).stroke = "#000000") with
    | some i => some i
    | none => sc.order.find? (fun i => isRectItem (sc.itemOf i))
  match target with
  | none => []
  | some i =>
      let it := sc.itemOf i
      match it.geom with
      | .rect x y w h =>
          let l := x + it.pos.1
          let t := y + it.pos.2
          let r := l + w
          let height := max 20 (h * 45 / 100)
          let roof : List Pos := [(l, t), ((l + r) / 2, t - height), (r, t)]
          [assistantPolygon roof (.colorBrush "#e53935" 255) TAG_ROOF_TRIANGLE]
      | _ => []

/-- `Suggestion.create_items`. -/
def Suggestion.createItems (s : Suggestion) (sc : SceneSt) : List Item :=
  match s.kind with
  | .catEars => make_cat_ears_for_first_ellipse sc
  | .roofTriangle => make_roof_triangle_for_first_rect sc

def CAT_EARS : Suggestion :=
  { label := "Ajouter des oreilles", kind := .catEars,
    previewPath := some "assistant/previews/CAT_EARS.png" }

def ROOF_TRIANGLE : Suggestion :=
  { label := "Ajouter un toit", kind := .roofTriangle,
    previewPath := some "assistant/previews/ROOF_TRIANGLE.png" }

/-- The suggestion trigger origin. -/
inductive Trigger
  | manual
  | auto
  deriving DecidableEq, Repr

/-- The context dict built by `AssistantController._build_context`. -/
structure Ctx where
  trigger : Trigger
  hasEllipse : Bool
  hasRect : Bool
  hasCatEars : Bool
  hasRoofTriangle : Bool
  createdKind : Option String
  autoSuppressed : List String
  deriving DecidableEq, Repr

/-- `AssistantController._build_context`. -/
def buildContext (st : AppState) (trigger : Trigger)
    (createdKind : Option String) : Ctx :=
  { trigger := trigger,
    hasEllipse := st.scene.order.any (fun i => isEllipseItem (st.scene.itemOf i)),
    hasRect := st.scene.order.any (fun i => isRectItem (st.scene.itemOf i)),
    hasCatEars :=
      st.scene.order.any (fun i => (st.scene.itemOf i).tag = some TAG_CAT_EAR),
    hasRoofTriangle :=
      st.scene.order.any (fun i => (st.scene.itemOf i).tag = some TAG_ROOF_TRIANGLE),
    createdKind := createdKind,
    autoSuppressed := st.autoSuppressed }

/-- The wizard's proposal dict.  `suggestionId` is `proposal.get("suggestion_id")`:
the dict built in `wizard.py` carries no such key, hence `none`. -/
structure Proposal where
  suggestion : Suggestion
  uncertaintyPct : ℕ
  explanation : List String
  whatToDo : String
  suggestionId : Option String
  deriving DecidableEq, Repr

/-- `assistant/wizard.py: propose_suggestion`: abstains unless the context
has an ellipse; otherwise always proposes CAT_EARS with fixed uncertainty.
It reads nothing else from the context (in particular not
`auto_suppressed`), and the returned dict has no `"suggestion_id"` key. -/
def propose_suggestion (ctx : Ctx) : Option Proposal :=
  if !ctx.hasEllipse then none
  else
    some { suggestion := CAT_EARS, uncertaintyPct := 70,
           explanation :=
             ["Une ellipse est détectée (tête possible).",
              "Ajout d\x27éléments symétriques au-dessus.",
              "Suggestion optionnelle (à ajuster)."],
           whatToDo := "Appliquez si vous dessinez un chat, sinon ignorez.",
           suggestionId := none }

/-- The outcome of the decision step of `_try_suggest`: the dialog produced a
choice (closing without choosing is already mapped to cancel by
`dlg.choice or "cancel"`), or `dlg.exec()` raised, leaving `choice = None`. -/
inductive Decision
  | raised
  | accept
  | ignore
  | override
  | cancel
  deriving DecidableEq, Repr

/-- `AssistantController._clear_ghost`: remove every ghost still attached to
a scene (absent ones count as already cleared), then empty the list. -/
def clearGhost (st : AppState) : AppState :=
  { st with scene := st.ghosts.foldl SceneSt.removeItem st.scene, ghosts := [] }

/-- The ghost marking applied before insertion: reduced opacity, disabled,
not selectable, not movable. -/
def ghostify (it : Item) : Item :=
  { it with
      opacity := 35 / 100, enabled := false, selectable := false,
      movable := false }

/-- The accept-path restoration: full opacity, enabled, selectable, movable. -/
def commitAttrs (it : Item) : Item :=
  { it with opacity := 1, enabled := true, selectable := true, movable := true }

/-- The ghost items a proposal instantiates, paired with the fresh ids the
created Python objects get. -/
def ghostPairs (st : AppState) (p : Proposal) : List (ItemId × Item) :=
  (p.suggestion.createItems st.scene).enum.map
    (fun ki => (st.nextId + ki.1, ki.2))

/-- Steps 1-2 on `Proposed`: clear any stale GhostSet, instantiate the
suggestion's items, mark them as ghost, insert them, record the new
GhostSet. -/
def ghostInserted (st0 : AppState) (p : Proposal) : AppState :=
  let st1 := clearGhost st0
  let pairs := ghostPairs st1 p
  { st1 with
      scene := pairs.foldl (fun sc gi => sc.addItem gi.1 (ghostify gi.2)) st1.scene,
      ghosts := pairs.map Prod.fst,
      nextId := st1.nextId + pairs.length }

/-- `AssistantController._try_suggest`.  Steps: build context, ask the
wizard; on a proposal clear any stale ghost, instantiate and insert the new
ghost items, run the decision step; on accept commit them inside one macro;
on ignore/override/cancel record auto-suppression (only when the proposal
carries a suggestion id) and let the `finally` clear the ghost; when the
decision step raised, `choice` is still `None`, so the `finally` clears the
ghost as well. -/
def trySuggest (st0 : AppState) (trigger : Trigger) (createdKind : Option String)
    (dec : Decision) : AppState :=
  let ctx := buildContext st0 trigger createdKind
  match propose_suggestion ctx with
  | none => st0
  | some p =>
      let st2 := ghostInserted st0 p
      match dec with
      | .accept =>
          let stack1 := st2.stack.macroBegin
          let committed :=
            st2.ghosts.foldl
              (fun (acc : UndoStack × SceneSt) i =>
                let sc := acc.2.updateItem i commitAttrs
                acc.1.push (.add i true) sc)
              (stack1, st2.scene)
          { st2 with
              scene := committed.2, stack := committed.1.macroEnd,
              ghosts := [] }
      | .ignore | .override | .cancel =>
          let st3 :=
            if trigger = .auto then
              match p.suggestionId with
              | some sid => { st2 with autoSuppressed := st2.autoSuppressed ++ [sid] }
              | none => st2
            else st2
          clearGhost st3
      | .raised => clearGhost st2

end Assistant

/-! ### Basic lemmas about the scene-state operations -/

namespace SceneSt

theorem removeItem_itemOf (sc : SceneSt) (i : ItemId) :
    (sc.removeItem i).itemOf = sc.itemOf := rfl

theorem mem_removeItem {sc : SceneSt} {i j : ItemId} :
    j ∈ (sc.removeItem i).order ↔ j ∈ sc.order ∧ j ≠ i := by
  simp [removeItem]

theorem foldl_removeItem_itemOf (ids : List ItemId) (sc : SceneSt) :
    (ids.foldl SceneSt.removeItem sc).itemOf = sc.itemOf := by
  induction ids generalizing sc with
  | nil => rfl
  | cons i rest ih => simpa using ih (sc.removeItem i)

theorem mem_foldl_removeItem {ids : List ItemId} {sc : SceneSt} {j : ItemId} :
    j ∈ (ids.foldl SceneSt.removeItem sc).order ↔ j ∈ sc.order ∧ j ∉ ids := by
  induction ids generalizing sc with
  | nil => simp
  | cons i rest ih =>
      simp only [List.foldl_cons, ih, mem_removeItem, List.mem_cons]
      tauto

theorem addItem_itemOf_ne {sc : SceneSt} {i j : ItemId} (h : j ≠ i) (it : Item) :
    ((sc.addItem i it).itemOf j) = sc.itemOf j := by
  simp only [addItem]
  split
  · rfl
  · simp [h]

theorem mem_addItem {sc : SceneSt} {i j : ItemId} {it : Item} :
    j ∈ (sc.addItem i it).order ↔ j ∈ sc.order ∨ j = i := by
  simp only [addItem]
  split
  · next h =>
      simp only [iff_self_or]
      rintro rfl; exact h
  · simp

theorem updateItem_order (sc : SceneSt) (i : ItemId) (f : Item → Item) :
    (sc.updateItem i f).order = sc.order := rfl

theorem setPos_order (sc : SceneSt) (i : ItemId) (p : Pos) :
    (sc.setPos i p).order = sc.order := rfl

theorem foldl_setPos_order (ids : List ItemId) (f : ItemId → Pos) (sc : SceneSt) :
    ((ids.foldl (fun s j => s.setPos j (f j)) sc).order) = sc.order := by
  induction ids generalizing sc with
  | nil => rfl
  | cons i rest ih => simpa using ih (sc.setPos i (f i))

theorem foldl_setPos_itemOf (ids : List ItemId) (f : ItemId → Pos) (sc : SceneSt)
    (k : ItemId) :
    ((ids.foldl (fun s j => s.setPos j (f j)) sc).itemOf k) =
      if k ∈ ids then { sc.itemOf k with pos := f k } else sc.itemOf k := by
  induction ids generalizing sc with
  | nil => simp
  | cons i rest ih =>
      simp only [List.foldl_cons, ih, List.mem_cons]
      by_cases hk : k ∈ rest
      · simp only [hk, if_true, or_true, if_true]
        by_cases hki : k = i
        · subst hki; simp [setPos, updateItem]
        · simp [setPos, updateItem, hki]
      · simp only [hk, if_false, or_false]
        by_cases hki : k = i
        · subst hki; simp [setPos, updateItem]
        · simp [setPos, updateItem, hki]

theorem setSelected_order (sc : SceneSt) (i : ItemId) (b : Bool) :
    (sc.setSelected i b).order = sc.order := by
  simp only [setSelected]
  split <;> rfl

theorem clearSelection_eq_foldl (sc : SceneSt) :
    sc.clearSelection = sc.order.foldl (fun s i => s.setSelected i false) sc := rfl

theorem foldl_setSelectedFalse_order (ids : List ItemId) (sc : SceneSt) :
    ((ids.foldl (fun s i => s.setSelected i false) sc).order) = sc.order := by
  induction ids generalizing sc with
  | nil => rfl
  | cons i rest ih =>
      simpa [setSelected_order] using ih (sc.setSelected i false)

theorem foldl_setSelectedFalse_itemOf (ids : List ItemId) (sc : SceneSt)
    (k : ItemId) :
    ((ids.foldl (fun s i => s.setSelected i false) sc).itemOf k) =
      if k ∈ ids then { sc.itemOf k with selected := false } else sc.itemOf k := by
  induction ids generalizing sc with
  | nil => simp
  | cons i rest ih =>
      simp only [List.foldl_cons, ih, List.mem_cons]
      by_cases hk : k ∈ rest
      · simp only [hk, if_true, or_true, if_true]
        by_cases hki : k = i
        · subst hki; simp [setSelected, updateItem]
        · simp [setSelected, updateItem, hki]
      · simp only [hk, if_false, or_false]
        by_cases hki : k = i
        · subst hki; simp [setSelected, updateItem]
        · simp [setSelected, updateItem, hki]

theorem clearSelection_order (sc : SceneSt) :
    sc.clearSelection.order = sc.order :=
  foldl_setSelectedFalse_order sc.order sc

theorem clearSelection_itemOf (sc : SceneSt) (k : ItemId) :
    (sc.clearSelection.itemOf k) =
      if k ∈ sc.order then { sc.itemOf k with selected := false } else sc.itemOf k :=
  foldl_setSelectedFalse_itemOf sc.order sc k

end SceneSt

/-! ### Claim C3: the commands are inverse pairs on item presence/position -/

/-- Equality of two scene states with respect to the item-presence and
item-position components (the components the spec's invariant names). -/
def viewEq (s1 s2 : SceneSt) : Prop :=
  (∀ i, i ∈ s1.order ↔ i ∈ s2.order) ∧
  ∀ i, (s1.itemOf i).pos = (s2.itemOf i).pos

/-- The scene states from which `redo` of a command is the next stack
operation: the state in which `QUndoStack` applies the command forward.  For
`add` this is after its construction-time first redo has been consumed (the
stack's `push` runs it immediately) and with the item currently absent.  For
`remove` the item is live at its captured position; for `move` the covered
items sit at the old snapshot. -/
def redoReady : Cmd → SceneSt → Prop
  | .add i first, s => first = false ∧ i ∉ s.order
  | .remove i p, s => i ∈ s.order ∧ (s.itemOf i).pos = p
  | .move items oldP _, s => ∀ i ∈ items, (s.itemOf i).pos = oldP i

/-- The scene states from which `undo` of the command is the next stack
operation (the command is currently applied). -/
def undoReady : Cmd → SceneSt → Prop
  | .add i first, s => first = false ∧ i ∈ s.order
  | .remove i p, s => i ∉ s.order ∧ (s.itemOf i).pos = p
  | .move items _ newP, s => ∀ i ∈ items, (s.itemOf i).pos = newP i

theorem addItem_itemOf_self (sc : SceneSt) (i j : ItemId) :
    ((sc.addItem i (sc.itemOf i)).itemOf j) = sc.itemOf j := by
  simp only [SceneSt.addItem]
  split
  · rfl
  · by_cases hj : j = i
    · subst hj; simp
    · simp [hj]

theorem Cmd.redo_add_false_notMem {i : ItemId} {sc : SceneSt} (h : i ∉ sc.order) :
    (Cmd.add i false).redo sc = (Cmd.add i false, sc.addItem i (sc.itemOf i)) := by
  simp [Cmd.redo, h]

theorem Cmd.undo_add (i : ItemId) (first : Bool) (sc : SceneSt) :
    (Cmd.add i first).undo sc = sc.removeItem i := rfl

theorem Cmd.redo_remove (i : ItemId) (p : Pos) (sc : SceneSt) :
    (Cmd.remove i p).redo sc = (Cmd.remove i p, sc.removeItem i) := rfl

theorem Cmd.undo_remove_notMem {i : ItemId} {sc : SceneSt} (p : Pos)
    (h : i ∉ sc.order) :
    (Cmd.remove i p).undo sc = (sc.addItem i (sc.itemOf i)).setPos i p := by
  simp [Cmd.undo, h]

theorem notMem_removeItem_self (sc : SceneSt) (i : ItemId) :
    i ∉ (sc.removeItem i).order := by
  simp [SceneSt.mem_removeItem]

/-- Presence/position view after `addItem`-then-`removeItem` of an absent
item: the original state. -/
theorem viewEq_add_remove {sc : SceneSt} {i : ItemId} (h : i ∉ sc.order) :
    viewEq ((sc.addItem i (sc.itemOf i)).removeItem i) sc := by
  constructor
  · intro j
    rw [SceneSt.mem_removeItem, SceneSt.mem_addItem]
    constructor
    · rintro ⟨hj | hj, hne⟩
      · exact hj
      · exact absurd hj hne
    · intro hj
      exact ⟨Or.inl hj, fun hji => h (hji ▸ hj)⟩
  · intro j
    rw [SceneSt.removeItem_itemOf, addItem_itemOf_self]

/-- Presence view after `removeItem`-then-`addItem` of a present item. -/
theorem mem_remove_add {sc : SceneSt} {i : ItemId} (h : i ∈ sc.order) (j : ItemId) :
    j ∈ (((sc.removeItem i).addItem i ((sc.removeItem i).itemOf i)).order) ↔
      j ∈ sc.order := by
  rw [SceneSt.mem_addItem, SceneSt.mem_removeItem]
  constructor
  · rintro (⟨hj, _⟩ | hj)
    · exact hj
    · exact hj ▸ h
  · intro hj
    by_cases hji : j = i
    · exact Or.inr hji
    · exact Or.inl ⟨hj, hji⟩

/-- C3.  For every scene state from which a command's `redo` (respectively
`undo`) is the next stack operation — the reachable pairings `QUndoStack`
produces, captured by `redoReady`/`undoReady` — redoing then undoing, and
undoing then redoing, restore the state with respect to item presence and
item positions, for all three command kinds (Add, Remove, MoveBatch). -/
theorem C3_commands_inverse (c : Cmd) (s1 s2 : SceneSt)
    (h1 : redoReady c s1) (h2 : undoReady c s2) :
    viewEq ((c.redo s1).1.undo (c.redo s1).2) s1 ∧
    viewEq (c.redo (c.undo s2)).2 s2 := by
  cases c with
  | add i first =>
      obtain ⟨hf, hi1⟩ := h1
      obtain ⟨_, hi2⟩ := h2
      subst hf
      constructor
      · rw [Cmd.redo_add_false_notMem hi1]
        exact viewEq_add_remove hi1
      · rw [Cmd.undo_add,
          Cmd.redo_add_false_notMem (notMem_removeItem_self s2 i)]
        constructor
        · exact mem_remove_add hi2
        · intro j
          rw [addItem_itemOf_self, SceneSt.removeItem_itemOf]
  | remove i p =>
      obtain ⟨hi1, hp1⟩ := h1
      obtain ⟨hi2, hp2⟩ := h2
      constructor
      · rw [Cmd.redo_remove,
          Cmd.undo_remove_notMem p (notMem_removeItem_self s1 i)]
        constructor
        · intro j
          rw [SceneSt.setPos_order]
          exact mem_remove_add hi1 j
        · intro j
          by_cases hji : j = i
          · subst hji
            simp only [SceneSt.setPos, SceneSt.updateItem, if_pos rfl]
            exact hp1.symm ▸ rfl
          · simp only [SceneSt.setPos, SceneSt.updateItem, if_neg hji]
            rw [addItem_itemOf_self, SceneSt.removeItem_itemOf]
      · rw [Cmd.undo_remove_notMem p hi2, Cmd.redo_remove]
        constructor
        · intro j
          rw [SceneSt.mem_removeItem, SceneSt.setPos_order, SceneSt.mem_addItem]
          constructor
          · rintro ⟨hj | hj, hne⟩
            · exact hj
            · exact absurd hj hne
          · intro hj
            exact ⟨Or.inl hj, fun hji => hi2 (hji ▸ hj)⟩
        · intro j
          rw [SceneSt.removeItem_itemOf]
          by_cases hji : j = i
          · subst hji
            simp only [SceneSt.setPos, SceneSt.updateItem, if_pos rfl]
            exact hp2.symm ▸ rfl
          · simp only [SceneSt.setPos, SceneSt.updateItem, if_neg hji]
            rw [addItem_itemOf_self]
  | move items oldP newP =>
      constructor
      · constructor
        · intro j
          show j ∈ (SceneSt.order _) ↔ _
          rw [show ((Cmd.move items oldP newP).redo s1).2 =
              items.foldl (fun s k => s.setPos k (newP k)) s1 from rfl,
            show ((Cmd.move items oldP newP).redo s1).1 = Cmd.move items oldP newP
              from rfl]
          rw [show (Cmd.move items oldP newP).undo
              (items.foldl (fun s k => s.setPos k (newP k)) s1) =
              items.foldl (fun s k => s.setPos k (oldP k))
                (items.foldl (fun s k => s.setPos k (newP k)) s1) from rfl]
          rw [SceneSt.foldl_setPos_order, SceneSt.foldl_setPos_order]
        · intro j
          show (SceneSt.itemOf _ j).pos = _
          rw [show ((Cmd.move items oldP newP).redo s1).1.undo
              ((Cmd.move items oldP newP).redo s1).2 =
              items.foldl (fun s k => s.setPos k (oldP k))
                (items.foldl (fun s k => s.setPos k (newP k)) s1) from rfl]
          rw [SceneSt.foldl_setPos_itemOf, SceneSt.foldl_setPos_itemOf]
          by_cases hj : j ∈ items
          · simp only [hj, if_true]
            exact (h1 j hj).symm
          · simp [hj]
      · constructor
        · intro j
          rw [show ((Cmd.move items oldP newP).redo
              ((Cmd.move items oldP newP).undo s2)).2 =
              items.foldl (fun s k => s.setPos k (newP k))
                (items.foldl (fun s k => s.setPos k (oldP k)) s2) from rfl]
          rw [SceneSt.foldl_setPos_order, SceneSt.foldl_setPos_order]
        · intro j
          rw [show ((Cmd.move items oldP newP).redo
              ((Cmd.move items oldP newP).undo s2)).2 =
              items.foldl (fun s k => s.setPos k (newP k))
                (items.foldl (fun s k => s.setPos k (oldP k)) s2) from rfl]
          rw [SceneSt.foldl_setPos_itemOf, SceneSt.foldl_setPos_itemOf]
          by_cases hj : j ∈ items
          · simp only [hj, if_true]
            exact (h2 j hj).symm
          · simp [hj]

/-- A concrete supported item used by several witnesses below. -/
def demoItem : Item :=
  { geom := .rect 0 0 10 10, pos := (0, 0), stroke := "#000000", strokeWidth := 1,
    brush := .noBrush, z := 0, tag := none, selectable := true, movable := true,
    enabled := true, opacity := 1, selected := false }

/-! ### Claim C2: the codec round-trip -/

def isPolygonGeom : Geometry → Bool
  | .polygon _ => true
  | _ => false

/-- The brush an item comes back with after a codec round-trip: lines carry
no brush attribute and the path decode branch never applies a fill, so both
come back brushless; a zero-alpha fill encodes as the `"none"` sentinel and
so also comes back brushless; any other color comes back at full alpha. -/
def decodedBrush (i : Item) : Brush :=
  match i.geom with
  | .line _ _ _ _ => .noBrush
  | .path _ => .noBrush
  | _ =>
      match i.brush with
      | .noBrush => .noBrush
      | .colorBrush hex a => if a = 0 then .noBrush else .colorBrush hex 255

/-- What `decode (encode i)` actually reconstructs: geometry, position,
stroke, width and z exactly; the brush as `decodedBrush`; the tag only for
polygons; interaction flags forced on; enabled/opacity/selection at their
fresh-object defaults. -/
def normalizeDecoded (i : Item) : Item :=
  { geom := i.geom, pos := i.pos, stroke := i.stroke,
    strokeWidth := i.strokeWidth, brush := decodedBrush i, z := i.z,
    tag := if isPolygonGeom i.geom then i.tag else none,
    selectable := true, movable := true, enabled := true, opacity := 1,
    selected := false }

/-- `decode ∘ encode` over the codec module. -/
def codecRoundTrip (i : Item) : Except PyErr (Option Item) :=
  match Serialization.serialize_item i with
  | none => .ok none
  | some r => Serialization.deserialize_item r

/-- Color names produced by `QColor.name()` are `#rrggbb` strings, never the
literal sentinel `"none"`. -/
def brushHexOk (i : Item) : Bool :=
  match i.brush with
  | .colorBrush hex _ => hex ≠ "none"
  | .noBrush => true

/-- Paths drawn by the app always contain at least their seed point. -/
def pathPtsOk (i : Item) : Bool :=
  match i.geom with
  | .path pts => !pts.isEmpty
  | _ => true

theorem map_coords_pathElems (rest : List Pos) :
    List.map (fun e : ℚ × ℚ × ElemTag => (e.1, e.2.1))
      (rest.map (fun q => (q.1, q.2, ElemTag.name "LineTo"))) = rest := by
  induction rest with
  | nil => rfl
  | cons a l ih => simp only [List.map_cons, ih]

/-- C2 (amended).  For every supported item whose color names are real hex
strings and whose path geometry is non-empty, `decode (encode i)` yields an
item equal to `i` in position, stroke color, stroke width, z-order and
variant geometry, with interaction flags forced on — but the fill survives
only for rect/ellipse/polygon (no-brush and zero-alpha both coming back as
no fill, other alphas normalized to opaque), a path's fill is dropped, and
the tag survives only for polygon items. -/
theorem C2_codec_roundtrip (i : Item) (h1 : brushHexOk i = true)
    (h2 : pathPtsOk i = true) :
    codecRoundTrip i = .ok (some (normalizeDecoded i)) := by
  cases hg : i.geom with
  | line x1 y1 x2 y2 =>
      simp [codecRoundTrip, Serialization.serialize_item, hg,
        typeName, Serialization.deserialize_item, Serialization.decodedBase,
        normalizeDecoded, decodedBrush, isPolygonGeom]
  | rect x y w h =>
      simp only [codecRoundTrip, Serialization.serialize_item, hg]
      cases hb : i.brush with
      | noBrush =>
          simp [Serialization.fillField, typeName, Serialization.deserialize_item,
            Serialization.decodedBase, Serialization.apply_fill_from,
            normalizeDecoded, decodedBrush, isPolygonGeom, hg, hb]
      | colorBrush hex a =>
          by_cases ha : a = 0
          · simp [Serialization.fillField, ha, typeName, Serialization.deserialize_item,
              Serialization.decodedBase, Serialization.apply_fill_from,
              normalizeDecoded, decodedBrush, isPolygonGeom, hg, hb]
          · have hx : hex ≠ "none" := by
              simpa [brushHexOk, hb] using h1
            simp [Serialization.fillField, ha, typeName, Serialization.deserialize_item,
              Serialization.decodedBase, Serialization.apply_fill_from, hx,
              normalizeDecoded, decodedBrush, isPolygonGeom, hg, hb]
  | ellipse x y w h =>
      simp only [codecRoundTrip, Serialization.serialize_item, hg]
      cases hb : i.brush with
      | noBrush =>
          simp [Serialization.fillField, typeName, Serialization.deserialize_item,
            Serialization.decodedBase, Serialization.apply_fill_from,
            normalizeDecoded, decodedBrush, isPolygonGeom, hg, hb]
      | colorBrush hex a =>
          by_cases ha : a = 0
          · simp [Serialization.fillField, ha, typeName, Serialization.deserialize_item,
              Serialization.decodedBase, Serialization.apply_fill_from,
              normalizeDecoded, decodedBrush, isPolygonGeom, hg, hb]
          · have hx : hex ≠ "none" := by
              simpa [brushHexOk, hb] using h1
            simp [Serialization.fillField, ha, typeName, Serialization.deserialize_item,
              Serialization.decodedBase, Serialization.apply_fill_from, hx,
              normalizeDecoded, decodedBrush, isPolygonGeom, hg, hb]
  | path pts =>
      cases pts with
      | nil =>
          exfalso
          rw [pathPtsOk, hg] at h2
          simp at h2
      | cons q rest =>
          simp only [codecRoundTrip, Serialization.serialize_item, hg,
            Serialization.pathElemsOf, typeName, Serialization.deserialize_item,
            Serialization.decodedBase, normalizeDecoded, decodedBrush,
            isPolygonGeom, List.map_cons, map_coords_pathElems]
          simp [normalizeDecoded, decodedBrush, hg, isPolygonGeom,
            Serialization.decodedBase]
          simpa using map_coords_pathElems rest
  | polygon pts =>
      simp only [codecRoundTrip, Serialization.serialize_item, hg]
      cases hb : i.brush with
      | noBrush =>
          simp [Serialization.fillField, typeName, Serialization.deserialize_item,
            Serialization.decodedBase, Serialization.apply_fill_from,
            normalizeDecoded, decodedBrush, isPolygonGeom, hg, hb]
      | colorBrush hex a =>
          by_cases ha : a = 0
          · simp [Serialization.fillField, ha, typeName, Serialization.deserialize_item,
              Serialization.decodedBase, Serialization.apply_fill_from,
              normalizeDecoded, decodedBrush, isPolygonGeom, hg, hb]
          · have hx : hex ≠ "none" := by
              simpa [brushHexOk, hb] using h1
            simp [Serialization.fillField, ha, typeName, Serialization.deserialize_item,
              Serialization.decodedBase, Serialization.apply_fill_from, hx,
              normalizeDecoded, decodedBrush, isPolygonGeom, hg, hb]

/-- A rect item carrying an assistant tag (any non-polygon item with a tag
serves). -/
def taggedRect : Item :=
  { geom := .rect 0 0 10 10, pos := (0, 0), stroke := "#000000",
    strokeWidth := 1, brush := .noBrush, z := 0,
    tag := some "assistant:cat_ear", selectable := true, movable := true,
    enabled := true, opacity := 1, selected := false }

/-- C2 counterexample: for a rect item carrying a tag, `decode (encode i)`
drops the tag, so the decoded item is not equal to the original in the
claim's enumerated attributes ("tag when present") even though the
interaction flags already match. -/
theorem C2_counterexample :
    codecRoundTrip taggedRect = .ok (some { taggedRect with tag := none }) ∧
    ({ taggedRect with tag := none } : Item) ≠ taggedRect := by
  constructor
  · rfl
  · intro h
    have := congrArg Item.tag h
    simp [taggedRect] at this

/-- Witness for C2 at a concrete rect item. -/
theorem C2_witness :
    brushHexOk demoItem = true ∧ pathPtsOk demoItem = true ∧
    codecRoundTrip demoItem = .ok (some (normalizeDecoded demoItem)) :=
  ⟨rfl, rfl, C2_codec_roundtrip demoItem rfl rfl⟩

/-! ### Claim C6: decoder behaviour on unknown type / missing geometry -/

def knownTypeNames : List String :=
  ["QGraphicsLineItem", "QGraphicsRectItem", "QGraphicsEllipseItem",
   "QGraphicsPathItem", "QGraphicsPolygonItem"]

/-- C6 (amended).  The codec decoder returns none for an unknown (or absent)
type tag, and returns none for a path record with missing or empty
`path_elems`; but a line/rect/ellipse record lacking its geometry key raises
a KeyError to the caller instead of returning none, and a polygon record
with missing or empty vertex list returns an empty polygon item rather than
none. -/
theorem C6_decode_missing (r : Record) :
    (r.rtype ∉ knownTypeNames.map some →
      Serialization.deserialize_item r = .ok none) ∧
    (r.rtype = some "QGraphicsPathItem" →
      r.pathElems = none ∨ r.pathElems = some [] →
      Serialization.deserialize_item r = .ok none) ∧
    (r.rtype = some "QGraphicsLineItem" → r.line = none →
      Serialization.deserialize_item r = .error (.keyError "line")) ∧
    (r.rtype = some "QGraphicsRectItem" → r.rect = none →
      Serialization.deserialize_item r = .error (.keyError "rect")) ∧
    (r.rtype = some "QGraphicsEllipseItem" → r.ellipse = none →
      Serialization.deserialize_item r = .error (.keyError "ellipse")) ∧
    (r.rtype = some "QGraphicsPolygonItem" →
      r.polygon = none ∨ r.polygon = some [] →
      ∃ i, Serialization.deserialize_item r = .ok (some i) ∧
        i.geom = .polygon []) := by
  refine ⟨?_, ?_, ?_, ?_, ?_, ?_⟩
  · intro h
    simp only [knownTypeNames, List.map_cons, List.map_nil, List.mem_cons,
      List.not_mem_nil, or_false, not_or] at h
    obtain ⟨h1, h2, h3, h4, h5⟩ := h
    simp [Serialization.deserialize_item, h1, h2, h3, h4, h5]
  · intro ht hpe
    rcases hpe with h | h <;> simp [Serialization.deserialize_item, ht, h]
  · intro ht h
    simp [Serialization.deserialize_item, ht, h]
  · intro ht h
    simp [Serialization.deserialize_item, ht, h]
  · intro ht h
    simp [Serialization.deserialize_item, ht, h]
  · intro ht h
    refine ⟨Serialization.decodedBase r (.polygon [])
      (Serialization.apply_fill_from (r.fill.getD "none")) r.assistantTag,
      ?_, rfl⟩
    rcases h with h | h <;> simp [Serialization.deserialize_item, ht, h]

/-- C6 counterexample: a rect record with no `"rect"` key makes the decoder
raise KeyError instead of returning none, and a polygon record with no
geometry yields an item, not none. -/
theorem C6_counterexample :
    Serialization.deserialize_item { rtype := some "QGraphicsRectItem" } =
      .error (.keyError "rect") ∧
    Serialization.deserialize_item { rtype := some "QGraphicsPolygonItem" } ≠
      .ok none := by
  constructor
  · rfl
  · intro h
    simp [Serialization.deserialize_item, Serialization.decodedBase,
      Serialization.apply_fill_from] at h

/-- Witness for C6 at a concrete unknown-type record. -/
theorem C6_witness :
    (({ rtype := some "Widget" } : Record).rtype ∉ knownTypeNames.map some) ∧
    Serialization.deserialize_item { rtype := some "Widget" } = .ok none :=
  ⟨by simp [knownTypeNames],
   (C6_decode_missing { rtype := some "Widget" }).1 (by simp [knownTypeNames])⟩

/-! ### Claim C9: scene clipboard codec vs codec module -/

/-- The integer element-type code the scene serializer writes where the
codec module writes a marker string. -/
def tagCode : ElemTag → ElemTag
  | .name "MoveTo" => .code 0
  | .name "LineTo" => .code 1
  | t => t

/-- How a codec-module record appears through the scene serializer: the
z-order and assistant-tag keys are absent and path markers are integer
codes. -/
def sceneView (r : Record) : Record :=
  { r with
      z := none, assistantTag := none,
      pathElems := r.pathElems.map
        (List.map (fun e => (e.1, e.2.1, tagCode e.2.2))) }

/-- The app never builds a zero-alpha color brush (the two serializers treat
one differently). -/
def brushAlphaOk (i : Item) : Bool :=
  match i.brush with
  | .colorBrush _ 0 => false
  | _ => true

theorem scenePathElems_tail (rest : List Pos) :
    rest.map (fun q : Pos => (q.1, q.2, ElemTag.code 1)) =
      (rest.map (fun q : Pos => (q.1, q.2, ElemTag.name "LineTo"))).map
        (fun e => (e.1, e.2.1, tagCode e.2.2)) := by
  induction rest with
  | nil => rfl
  | cons a l ih =>
      simp only [List.map_cons, ih]
      rfl

theorem scenePathElems_eq (pts : List Pos) :
    Scene.scenePathElemsOf pts =
      (Serialization.pathElemsOf pts).map (fun e => (e.1, e.2.1, tagCode e.2.2)) := by
  cases pts with
  | nil => rfl
  | cons p rest =>
      simp only [Scene.scenePathElemsOf, Serialization.pathElemsOf,
        List.map_cons, ← scenePathElems_tail]
      rfl

/-- C9 (amended).  The clipboard path and the template path do NOT share one
encoding.  For non-polygon items without zero-alpha fills, the scene's
serializer produces the codec module's record with the z-order (and
assistant-tag) keys dropped and path markers renumbered; polygon items are
not encodable by the scene serializer at all; and on any record both
decoders accept, the scene decoder reconstructs the codec decoder's item
with the z-order reset to the default 0 instead of the record's value. -/
theorem C9_two_codecs (i : Item) (r : Record) :
    (brushAlphaOk i = true → isPolygonGeom i.geom = false →
      Scene.serialize_item i = (Serialization.serialize_item i).map sceneView) ∧
    (isPolygonGeom i.geom = true → Scene.serialize_item i = none) ∧
    (∀ j, Scene.deserialize_item r = .ok (some j) →
      Serialization.deserialize_item r = .ok (some { j with z := r.z.getD 0 })) := by
  refine ⟨?_, ?_, ?_⟩
  · intro hba hnp
    cases hg : i.geom with
    | line x1 y1 x2 y2 =>
        simp [Scene.serialize_item, Serialization.serialize_item, hg, sceneView]
    | rect x y w h =>
        cases hb : i.brush with
        | noBrush =>
            simp [Scene.serialize_item, Serialization.serialize_item, hg, hb,
              sceneView, Scene.sceneFillField, Serialization.fillField]
        | colorBrush hex a =>
            cases a with
            | zero => rw [brushAlphaOk, hb] at hba; cases hba
            | succ n =>
                simp [Scene.serialize_item, Serialization.serialize_item, hg, hb,
                  sceneView, Scene.sceneFillField, Serialization.fillField]
    | ellipse x y w h =>
        cases hb : i.brush with
        | noBrush =>
            simp [Scene.serialize_item, Serialization.serialize_item, hg, hb,
              sceneView, Scene.sceneFillField, Serialization.fillField]
        | colorBrush hex a =>
            cases a with
            | zero => rw [brushAlphaOk, hb] at hba; cases hba
            | succ n =>
                simp [Scene.serialize_item, Serialization.serialize_item, hg, hb,
                  sceneView, Scene.sceneFillField, Serialization.fillField]
    | path pts =>
        cases hb : i.brush with
        | noBrush =>
            simp [Scene.serialize_item, Serialization.serialize_item, hg, hb,
              sceneView, Scene.sceneFillField, Serialization.fillField,
              scenePathElems_eq]
        | colorBrush hex a =>
            cases a with
            | zero => rw [brushAlphaOk, hb] at hba; cases hba
            | succ n =>
                simp [Scene.serialize_item, Serialization.serialize_item, hg, hb,
                  sceneView, Scene.sceneFillField, Serialization.fillField,
                  scenePathElems_eq]
    | polygon pts => simp [isPolygonGeom, hg] at hnp
  · intro hp
    cases hg : i.geom with
    | polygon pts => simp [Scene.serialize_item, hg]
    | line x1 y1 x2 y2 => simp [isPolygonGeom, hg] at hp
    | rect x y w h => simp [isPolygonGeom, hg] at hp
    | ellipse x y w h => simp [isPolygonGeom, hg] at hp
    | path pts => simp [isPolygonGeom, hg] at hp
  · intro j hj
    cases hr : r.rtype with
    | none =>
        simp only [Scene.deserialize_item, hr] at hj
        exact Except.noConfusion hj
    | some t =>
        simp only [Scene.deserialize_item, hr] at hj
        by_cases hp : r.pos = none
        · rw [if_pos hp] at hj; cases hj
        · rw [if_neg hp] at hj
          by_cases h1 : t = "QGraphicsLineItem"
          · rw [if_pos h1] at hj
            cases hl : r.line with
            | none => rw [hl] at hj; cases hj
            | some v =>
                obtain ⟨x1, y1, x2, y2⟩ := v
                rw [hl] at hj
                have hj2 : Scene.sceneDecodedBase r (.line x1 y1 x2 y2) .noBrush = j := by
                  simpa using hj
                subst hj2
                simp [Serialization.deserialize_item, hr, h1, hl,
                  Serialization.decodedBase, Scene.sceneDecodedBase]
          · rw [if_neg h1] at hj
            by_cases h2 : t = "QGraphicsRectItem"
            · rw [if_pos h2] at hj
              cases hl : r.rect with
              | none => rw [hl] at hj; cases hj
              | some v =>
                  obtain ⟨x, y, w, h⟩ := v
                  rw [hl] at hj
                  have hj2 : Scene.sceneDecodedBase r (.rect x y w h)
                      (Serialization.apply_fill_from (r.fill.getD "none")) = j := by
                    simpa using hj
                  subst hj2
                  have ht : r.rtype = some "QGraphicsRectItem" := h2 ▸ hr
                  simp [Serialization.deserialize_item, ht, hl,
                    Serialization.decodedBase, Scene.sceneDecodedBase]
            · rw [if_neg h2] at hj
              by_cases h3 : t = "QGraphicsEllipseItem"
              · rw [if_pos h3] at hj
                cases hl : r.ellipse with
                | none => rw [hl] at hj; cases hj
                | some v =>
                    obtain ⟨x, y, w, h⟩ := v
                    rw [hl] at hj
                    have hj2 : Scene.sceneDecodedBase r (.ellipse x y w h)
                        (Serialization.apply_fill_from (r.fill.getD "none")) = j := by
                      simpa using hj
                    subst hj2
                    have ht : r.rtype = some "QGraphicsEllipseItem" := h3 ▸ hr
                    simp [Serialization.deserialize_item, ht, hl,
                      Serialization.decodedBase, Scene.sceneDecodedBase]
              · rw [if_neg h3] at hj
                by_cases h4 : t = "QGraphicsPathItem"
                · rw [if_pos h4] at hj
                  cases hl : r.pathElems with
                  | none => rw [hl] at hj; cases hj
                  | some elems =>
                      cases elems with
                      | nil => rw [hl] at hj; cases hj
                      | cons e es =>
                          rw [hl] at hj
                          have hj2 : Scene.sceneDecodedBase r
                              (.path ((e :: es).map (fun e => (e.1, e.2.1))))
                              .noBrush = j := by
                            simpa using hj
                          subst hj2
                          have ht : r.rtype = some "QGraphicsPathItem" := h4 ▸ hr
                          simp [Serialization.deserialize_item, ht, hl,
                            Serialization.decodedBase, Scene.sceneDecodedBase]
                · rw [if_neg h4] at hj
                  cases hj

/-- C9 counterexample: on a rect item with z-order 5 the two serializers
produce different records — the scene's has no `"z"` key while the codec
module's stores 5 — so the two paths do not share one encoding and the
scene record does not capture z. -/
theorem C9_counterexample :
    (Scene.serialize_item { demoItem with z := 5 }).map Record.z = some none ∧
    (Serialization.serialize_item { demoItem with z := 5 }).map Record.z =
      some (some 5) ∧
    Scene.serialize_item { demoItem with z := 5 } ≠
      Serialization.serialize_item { demoItem with z := 5 } := by
  refine ⟨rfl, rfl, ?_⟩
  intro h
  have := congrArg (Option.map Record.z) h
  simp [Scene.serialize_item, Serialization.serialize_item, demoItem] at this

/-- Witness for C9 at a concrete rect item and rect record. -/
theorem C9_witness :
    brushAlphaOk demoItem = true ∧ isPolygonGeom demoItem.geom = false ∧
    Scene.serialize_item demoItem =
      (Serialization.serialize_item demoItem).map sceneView ∧
    Serialization.deserialize_item
        { rtype := some "QGraphicsRectItem", pos := some (0, 0),
          rect := some (0, 0, 10, 10), z := some 4 } =
      .ok (some { Serialization.decodedBase
          { rtype := some "QGraphicsRectItem", pos := some (0, 0),
            rect := some (0, 0, 10, 10), z := some 4 }
          (.rect 0 0 10 10) .noBrush none with z := 4 }) := by
  refine ⟨rfl, rfl, (C9_two_codecs demoItem {}).1 rfl rfl, ?_⟩
  have h := (C9_two_codecs demoItem
      { rtype := some "QGraphicsRectItem", pos := some (0, 0),
        rect := some (0, 0, 10, 10), z := some 4 }).2.2
      (Scene.sceneDecodedBase
        { rtype := some "QGraphicsRectItem", pos := some (0, 0),
          rect := some (0, 0, 10, 10), z := some 4 }
        (.rect 0 0 10 10) (Serialization.apply_fill_from "none")) rfl
  simpa [Scene.sceneDecodedBase, Serialization.decodedBase,
    Serialization.apply_fill_from] using h

/-! ### Claim C5: paste behaviour -/

theorem UndoStack.push_snd (stack : UndoStack) (c : Cmd) (sc : SceneSt) :
    (stack.push c sc).2 = (c.redo sc).2 := by
  unfold UndoStack.push
  rcases hm : stack.macroCmds with _ | m <;> simp [hm]

theorem UndoStack.push_fst_of_none {stack : UndoStack} (h : stack.macroCmds = none)
    (c : Cmd) (sc : SceneSt) :
    (stack.push c sc).1 =
      { stack with done := [(c.redo sc).1] :: stack.done, undone := [] } := by
  unfold UndoStack.push
  simp [h]

theorem UndoStack.push_fst_of_some {stack : UndoStack} {m : List Cmd}
    (h : stack.macroCmds = some m) (c : Cmd) (sc : SceneSt) :
    (stack.push c sc).1 =
      { stack with macroCmds := some (m ++ [(c.redo sc).1]), undone := [] } := by
  unfold UndoStack.push
  simp [h]

theorem SceneSt.addItem_order_of_notMem {sc : SceneSt} {i : ItemId}
    (h : i ∉ sc.order) (it : Item) : (sc.addItem i it).order = sc.order ++ [i] := by
  simp [SceneSt.addItem, h]

theorem SceneSt.addItem_itemOf_self_of_notMem {sc : SceneSt} {i : ItemId}
    (h : i ∉ sc.order) (it : Item) : (sc.addItem i it).itemOf i = it := by
  simp [SceneSt.addItem, h]

theorem SceneSt.updateItem_itemOf_self (sc : SceneSt) (i : ItemId) (f : Item → Item) :
    (sc.updateItem i f).itemOf i = f (sc.itemOf i) := by
  simp [SceneSt.updateItem]

theorem SceneSt.updateItem_itemOf_ne {i j : ItemId} (sc : SceneSt) (h : j ≠ i)
    (f : Item → Item) : (sc.updateItem i f).itemOf j = sc.itemOf j := by
  simp [SceneSt.updateItem, h]

theorem SceneSt.setSelected_of_selectable {sc : SceneSt} {i : ItemId}
    (h : (sc.itemOf i).selectable = true) :
    sc.setSelected i true = sc.updateItem i (fun it => { it with selected := true }) := by
  simp [SceneSt.setSelected, h]

theorem Scene.pasteOne_scene (st : AppState) (it : Item) :
    (Scene.pasteOne st it).1.scene =
      st.scene.addItem st.nextId { it with pos := (it.pos.1 + 10, it.pos.2 + 10) } := by
  show (UndoStack.push _ _ _).2 = _
  rw [UndoStack.push_snd]
  rfl

/-- The record of the claim's clipboard text, inside the parsed `"items"`
list.  The text's key `"strokeWidth"` is not the codec's key
`"stroke_width"`, so no stroke-width key is present for the decoder (it
defaults to 1 = the given value anyway). -/
def c5Record : Record :=
  { rtype := some "Rect", pos := some (0, 0), rect := some (0, 0, 10, 10),
    stroke := some "#000000", fill := some "none", z := some 0 }

/-- The same record with the type tag the scene decoder actually matches. -/
def c5GoodRecord : Record :=
  { rtype := some "QGraphicsRectItem", pos := some (0, 0),
    rect := some (0, 0, 10, 10), stroke := some "#000000",
    strokeWidth := some 1, fill := some "none", z := some 0 }

/-- What the scene decoder yields for `c5GoodRecord`, already offset by the
default paste offset (10, 10), before selection. -/
def c5Pasted : Item :=
  { geom := .rect 0 0 10 10, pos := (10, 10), stroke := "#000000",
    strokeWidth := 1, brush := .noBrush, z := 0, tag := none,
    selectable := true, movable := true, enabled := true, opacity := 1,
    selected := false }

/-- A concrete empty application state. -/
def emptyApp : AppState :=
  { scene := { order := [], itemOf := fun _ => demoItem }, stack := {},
    ghosts := [], autoSuppressed := [], nextId := 0 }

/-- A concrete start state holding one live, selected item (id 7) so that
the paste's selection replacement is observable. -/
def c5Start : AppState :=
  { scene := { order := [7], itemOf := fun _ => { demoItem with selected := true } },
    stack := {}, ghosts := [], autoSuppressed := [], nextId := 8 }

/-- C5 counterexample: pasting the claim's exact clipboard text (type tag
`"Rect"`) into an empty scene inserts nothing at all — the scene decoder
only recognises the Python class names — contradicting the claimed single
inserted-and-selected rectangle at (10, 10). -/
theorem C5_counterexample :
    Scene.paste emptyApp (.json (some [c5Record])) = .ok emptyApp ∧
    emptyApp.scene.order = [] := ⟨rfl, rfl⟩

/-- C5 (amended).  A pasted record carrying the decoder's type tag
`"QGraphicsRectItem"` inserts exactly one rectangle at the default offset
(10, 10) and leaves it the sole selected item (previously selected items
are deselected); the claim's literal record (type `"Rect"`) is skipped by
the decoder, so that paste inserts nothing; non-JSON clipboard text and
JSON without an `"items"` key insert nothing and surface no error. -/
theorem C5_paste :
    (∃ st2, Scene.paste c5Start (.json (some [c5GoodRecord])) = .ok st2 ∧
      st2.scene.order = [7, 8] ∧
      st2.scene.itemOf 8 = { c5Pasted with selected := true } ∧
      st2.scene.selectedItems = [8]) ∧
    (∀ st, Scene.paste st .notJson = .ok st) ∧
    (∀ st, Scene.paste st (.json none) =
      .ok { st with scene := st.scene.clearSelection }) :=
  ⟨⟨_, rfl, by rfl, by
    norm_num [Scene.pasteOne, UndoStack.push, Cmd.redo, SceneSt.addItem,
      SceneSt.clearSelection, SceneSt.setSelected, SceneSt.updateItem,
      Scene.sceneDecodedBase, c5GoodRecord, c5Start, c5Pasted, demoItem,
      Serialization.apply_fill_from], by rfl⟩, fun _ => rfl, fun _ => rfl⟩

/-! ### Claim C8: the SELECT gesture's MoveBatch push -/

/-- The release-time state of a gesture that dragged the single selected
movable item (id 0) from the origin by (3, 0). -/
def c8SingleDragged : AppState :=
  { scene :=
      { order := [0],
        itemOf := fun _ => { demoItem with selected := true, pos := (3, 0) } },
    stack := {}, ghosts := [], autoSuppressed := [], nextId := 1 }

/-- The release-time state of a gesture that dragged the same item by only
(1, 0). -/
def c8SmallDragged : AppState :=
  { scene :=
      { order := [0],
        itemOf := fun _ => { demoItem with selected := true, pos := (1, 0) } },
    stack := {}, ghosts := [], autoSuppressed := [], nextId := 1 }

/-- The press-time capture for the single-item gestures. -/
def c8SingleOld : List (ItemId × Pos) := [(0, (0, 0))]

/-- The release-time state of a gesture over a two-item selection: id 0
(movable) was dragged from the origin to (3, 0); id 1 (selectable but not
movable) stayed at (5, 5). -/
def c8MixDragged : AppState :=
  { scene :=
      { order := [0, 1],
        itemOf := fun i =>
          if i = 0 then { demoItem with selected := true, pos := (3, 0) }
          else { demoItem with
                   selected := true, movable := false, pos := (5, 5) } },
    stack := {}, ghosts := [], autoSuppressed := [], nextId := 2 }

/-- The press-time capture for the mixed gesture. -/
def c8MixOld : List (ItemId × Pos) := [(0, (0, 0)), (1, (5, 5))]

/-- C8 counterexample: at the release of the mixed gesture the pushed
MoveBatch covers BOTH captured items `[0, 1]`, although item 1 (not
movable) has the same position in the before and after snapshots — so the
pushed command does not cover exactly the items whose position differs. -/
theorem C8_counterexample :
    (Scene.selectRelease c8MixDragged (0, 0) (3, 0) c8MixOld).stack.done.map
        (fun e => e.map Cmd.coveredItems) = [[[0, 1]]] ∧
    (c8MixDragged.scene.itemOf 1).pos = (5, 5) ∧
    c8MixOld.lookup 1 = some (5, 5) := by
  refine ⟨?_, by decide, by decide⟩
  simp only [Scene.selectRelease]
  rw [if_pos (by norm_num), if_neg (by decide), if_pos (by decide)]
  decide

/-- C8 (amended).  The SELECT release handler pushes at most one entry; it
pushes exactly when the pointer's Manhattan displacement exceeds 2, the
press-time capture is non-empty and at least one captured item still
selected at release changed position; the pushed MoveBatch covers all
captured items still selected at release (whether or not each moved), not
only the moved ones.  Concretely, the release of a gesture that dragged the
selected item by (3, 0) pushes exactly one MoveBatch covering it, and the
release of a gesture that dragged it by (1, 0) pushes none. -/
theorem C8_select_release (st : AppState) (pressPos releasePos : Pos)
    (old : List (ItemId × Pos)) (hm : st.stack.macroCmds = none) :
    ((Scene.selectRelease st pressPos releasePos old).stack.done.length ≤
      st.stack.done.length + 1) ∧
    ((|releasePos.1 - pressPos.1| + |releasePos.2 - pressPos.2| > 2 ∧
        old ≠ [] ∧ Scene.releaseChanged st old = true) →
      (Scene.selectRelease st pressPos releasePos old).stack.done =
        [Scene.releaseMoveCmd st old] :: st.stack.done) ∧
    (¬(|releasePos.1 - pressPos.1| + |releasePos.2 - pressPos.2| > 2 ∧
        old ≠ [] ∧ Scene.releaseChanged st old = true) →
      Scene.selectRelease st pressPos releasePos old = st) ∧
    ((Scene.selectRelease c8SingleDragged (0, 0) (3, 0) c8SingleOld).stack.done.map
        (fun e => e.map Cmd.coveredItems) = [[[0]]]) ∧
    ((Scene.selectRelease c8SmallDragged (0, 0) (1, 0) c8SingleOld).stack.done
      = []) := by
  refine ⟨?_, ?_, ?_, ?_, ?_⟩
  · by_cases h1 : |releasePos.1 - pressPos.1| + |releasePos.2 - pressPos.2| > 2
    · by_cases h2 : old = []
      · simp [Scene.selectRelease, h1, h2]
      · by_cases h3 : Scene.releaseChanged st old = true
        · simp only [Scene.selectRelease, if_pos h1, if_neg h2, h3, if_true]
          rw [UndoStack.push_fst_of_none hm]
          simp
        · simp [Scene.selectRelease, h1, h2, h3]
    · simp [Scene.selectRelease, h1]
  · rintro ⟨h1, h2, h3⟩
    simp only [Scene.selectRelease, if_pos h1, if_neg h2, h3, if_true]
    rw [UndoStack.push_fst_of_none hm]
    rfl
  · intro hn
    by_cases h1 : |releasePos.1 - pressPos.1| + |releasePos.2 - pressPos.2| > 2
    · by_cases h2 : old = []
      · simp [Scene.selectRelease, h1, h2]
      · by_cases h3 : Scene.releaseChanged st old = true
        · exact absurd ⟨h1, h2, h3⟩ hn
        · simp [Scene.selectRelease, h1, h2, h3]
    · simp [Scene.selectRelease, h1]
  · simp only [Scene.selectRelease]
    rw [if_pos (by norm_num), if_neg (by decide), if_pos (by decide)]
    decide
  · simp only [Scene.selectRelease]
    rw [if_neg (by norm_num)]
    rfl

/-- Witness for C8 at the concrete dragged one-item state. -/
theorem C8_witness :
    c8SingleDragged.stack.macroCmds = none ∧
    (Scene.selectRelease c8SingleDragged (0, 0) (3, 0) c8SingleOld).stack.done.map
        (fun e => e.map Cmd.coveredItems) = [[[0]]] :=
  ⟨rfl, (C8_select_release c8SingleDragged (0, 0) (3, 0) c8SingleOld rfl).2.2.2.1⟩

/-! ### Lemmas about the controller's ghost flow -/

theorem mem_foldl_addPairs {ps : List (ItemId × Item)} {f : Item → Item}
    {sc : SceneSt} {j : ItemId} :
    j ∈ ((ps.foldl (fun sc gi => sc.addItem gi.1 (f gi.2)) sc).order) ↔
      j ∈ sc.order ∨ j ∈ ps.map Prod.fst := by
  induction ps generalizing sc with
  | nil => simp
  | cons p rest ih =>
      simp only [List.foldl_cons, ih, SceneSt.mem_addItem, List.map_cons,
        List.mem_cons]
      tauto

theorem clearGhost_ghosts (st : AppState) : (Assistant.clearGhost st).ghosts = [] := rfl

theorem clearGhost_stack (st : AppState) :
    (Assistant.clearGhost st).stack = st.stack := rfl

theorem clearGhost_scene (st : AppState) :
    (Assistant.clearGhost st).scene = st.ghosts.foldl SceneSt.removeItem st.scene := rfl

theorem notMem_clearGhost_scene {st : AppState} {i : ItemId} (h : i ∈ st.ghosts) :
    i ∉ (Assistant.clearGhost st).scene.order := by
  rw [clearGhost_scene, SceneSt.mem_foldl_removeItem]
  exact fun hc => hc.2 h

/-- The commit fold of the accept path: pushing already-present Adds while
restoring each ghost's attributes.  The scene keeps its membership, every
folded-over item ends with the committed attributes, and with an open macro
the commands accumulate in the macro (the `done` entries untouched). -/
theorem commitFold_spec (gs : List ItemId) (stack : UndoStack) (sc : SceneSt) :
    ((gs.foldl (fun (acc : UndoStack × SceneSt) i =>
        acc.1.push (.add i true) (acc.2.updateItem i Assistant.commitAttrs))
      (stack, sc)).2.order = sc.order) ∧
    (∀ j, ((gs.foldl (fun (acc : UndoStack × SceneSt) i =>
        acc.1.push (.add i true) (acc.2.updateItem i Assistant.commitAttrs))
      (stack, sc)).2.itemOf j) =
        if j ∈ gs then Assistant.commitAttrs (sc.itemOf j) else sc.itemOf j) ∧
    (∀ m, stack.macroCmds = some m →
      ((gs.foldl (fun (acc : UndoStack × SceneSt) i =>
          acc.1.push (.add i true) (acc.2.updateItem i Assistant.commitAttrs))
        (stack, sc)).1.macroCmds =
          some (m ++ gs.map (fun i => Cmd.add i false)) ∧
       ((gs.foldl (fun (acc : UndoStack × SceneSt) i =>
          acc.1.push (.add i true) (acc.2.updateItem i Assistant.commitAttrs))
        (stack, sc)).1.done = stack.done))) := by
  induction gs generalizing stack sc with
  | nil => exact ⟨rfl, fun j => by simp, fun m hm => by simp [hm]⟩
  | cons i rest ih =>
      have hstep : (stack.push (.add i true) (sc.updateItem i Assistant.commitAttrs)).2 =
          sc.updateItem i Assistant.commitAttrs := by
        rw [UndoStack.push_snd]
        rfl
      obtain ⟨ihOrd, ihItem, ihMacro⟩ :=
        ih (stack.push (.add i true) (sc.updateItem i Assistant.commitAttrs)).1
          (stack.push (.add i true) (sc.updateItem i Assistant.commitAttrs)).2
      refine ⟨?_, ?_, ?_⟩
      · simp only [List.foldl_cons]
        rw [ihOrd, hstep, SceneSt.updateItem_order]
      · intro j
        simp only [List.foldl_cons]
        rw [ihItem j, hstep]
        by_cases hjr : j ∈ rest
        · simp only [hjr, if_true, List.mem_cons, or_true]
          by_cases hji : j = i
          · subst hji
            rw [SceneSt.updateItem_itemOf_self]
            rfl
          · rw [SceneSt.updateItem_itemOf_ne _ hji]
        · simp only [hjr, if_false, List.mem_cons, or_false]
          by_cases hji : j = i
          · subst hji
            rw [SceneSt.updateItem_itemOf_self]
            simp
          · rw [SceneSt.updateItem_itemOf_ne _ hji]
            simp [hji]
      · intro m hm
        simp only [List.foldl_cons]
        have hpf := UndoStack.push_fst_of_some hm (Cmd.add i true)
          (sc.updateItem i Assistant.commitAttrs)
        have hredo : ((Cmd.add i true).redo (sc.updateItem i Assistant.commitAttrs)).1 =
            Cmd.add i false := rfl
        obtain ⟨hmac, hdone⟩ := ihMacro (m ++ [Cmd.add i false]) (by rw [hpf, hredo])
        constructor
        · rw [hmac]
          simp
        · rw [hdone, hpf]

/-- Undoing an entry made of already-present Add commands removes exactly
the listed items. -/
theorem undoEntry_adds (gs : List ItemId) (sc : SceneSt) :
    ((gs.map (fun i => Cmd.add i false)).reverse.foldl (fun s c => c.undo s) sc) =
      gs.reverse.foldl SceneSt.removeItem sc := by
  rw [← List.map_reverse, List.foldl_map]
  rfl

/-! ### Claim C1: non-accept outcomes roll the ghost back completely -/

/-- C1.  Any suggestion flow that reaches Proposed (the wizard returned a
proposal) and ends with any non-accept outcome — ignore, override, cancel /
dialog dismissed, or an exception during the decision step (`raised`) —
terminates with no ghost item in the scene (neither the new ghosts nor any
stale ones), an empty GhostSet, and the undo stack exactly as before the
flow. -/
theorem C1_rollback (st : AppState) (trigger : Assistant.Trigger)
    (createdKind : Option String) (dec : Assistant.Decision)
    (p : Assistant.Proposal)
    (hp : Assistant.propose_suggestion
      (Assistant.buildContext st trigger createdKind) = some p)
    (hd : dec ≠ .accept) :
    (Assistant.trySuggest st trigger createdKind dec).ghosts = [] ∧
    (Assistant.trySuggest st trigger createdKind dec).stack = st.stack ∧
    (∀ i ∈ (Assistant.ghostPairs (Assistant.clearGhost st) p).map Prod.fst,
      i ∉ (Assistant.trySuggest st trigger createdKind dec).scene.order) ∧
    (∀ i ∈ st.ghosts,
      i ∉ (Assistant.trySuggest st trigger createdKind dec).scene.order) := by
  have main : ∀ st3 : AppState,
      st3.ghosts = (Assistant.ghostPairs (Assistant.clearGhost st) p).map Prod.fst →
      (∀ j, j ∈ st3.scene.order ↔
        j ∈ (Assistant.clearGhost st).scene.order ∨
        j ∈ (Assistant.ghostPairs (Assistant.clearGhost st) p).map Prod.fst) →
      ((Assistant.clearGhost st3).ghosts = [] ∧
       (∀ i ∈ (Assistant.ghostPairs (Assistant.clearGhost st) p).map Prod.fst,
         i ∉ (Assistant.clearGhost st3).scene.order) ∧
       (∀ i ∈ st.ghosts, i ∉ (Assistant.clearGhost st3).scene.order)) := by
    intro st3 hg horder
    refine ⟨rfl, ?_, ?_⟩
    · intro i hi
      rw [clearGhost_scene, SceneSt.mem_foldl_removeItem]
      rintro ⟨_, hno⟩
      exact hno (hg ▸ hi)
    · intro i hi
      rw [clearGhost_scene, SceneSt.mem_foldl_removeItem, hg]
      rintro ⟨hin, hno⟩
      rcases (horder i).mp hin with hold | hnew
      · exact notMem_clearGhost_scene hi hold
      · exact hno hnew
  cases dec with
  | accept => exact absurd rfl hd
  | raised =>
      simp only [Assistant.trySuggest, hp]
      obtain ⟨g1, g2, g3⟩ := main (Assistant.ghostInserted st p) rfl
        (fun j => mem_foldl_addPairs)
      exact ⟨g1, rfl, g2, g3⟩
  | ignore =>
      simp only [Assistant.trySuggest, hp]
      cases trigger with
      | manual =>
          obtain ⟨g1, g2, g3⟩ := main (Assistant.ghostInserted st p) rfl
            (fun j => mem_foldl_addPairs)
          exact ⟨g1, rfl, g2, g3⟩
      | auto =>
          cases hsid : p.suggestionId with
          | none =>
              simp only [hsid]
              obtain ⟨g1, g2, g3⟩ := main (Assistant.ghostInserted st p) rfl
                (fun j => mem_foldl_addPairs)
              exact ⟨g1, rfl, g2, g3⟩
          | some sid =>
              simp only [hsid]
              obtain ⟨g1, g2, g3⟩ := main
                { Assistant.ghostInserted st p with
                    autoSuppressed :=
                      (Assistant.ghostInserted st p).autoSuppressed ++ [sid] }
                rfl (fun j => mem_foldl_addPairs)
              exact ⟨g1, rfl, g2, g3⟩
  | override =>
      simp only [Assistant.trySuggest, hp]
      cases trigger with
      | manual =>
          obtain ⟨g1, g2, g3⟩ := main (Assistant.ghostInserted st p) rfl
            (fun j => mem_foldl_addPairs)
          exact ⟨g1, rfl, g2, g3⟩
      | auto =>
          cases hsid : p.suggestionId with
          | none =>
              simp only [hsid]
              obtain ⟨g1, g2, g3⟩ := main (Assistant.ghostInserted st p) rfl
                (fun j => mem_foldl_addPairs)
              exact ⟨g1, rfl, g2, g3⟩
          | some sid =>
              simp only [hsid]
              obtain ⟨g1, g2, g3⟩ := main
                { Assistant.ghostInserted st p with
                    autoSuppressed :=
                      (Assistant.ghostInserted st p).autoSuppressed ++ [sid] }
                rfl (fun j => mem_foldl_addPairs)
              exact ⟨g1, rfl, g2, g3⟩
  | cancel =>
      simp only [Assistant.trySuggest, hp]
      cases trigger with
      | manual =>
          obtain ⟨g1, g2, g3⟩ := main (Assistant.ghostInserted st p) rfl
            (fun j => mem_foldl_addPairs)
          exact ⟨g1, rfl, g2, g3⟩
      | auto =>
          cases hsid : p.suggestionId with
          | none =>
              simp only [hsid]
              obtain ⟨g1, g2, g3⟩ := main (Assistant.ghostInserted st p) rfl
                (fun j => mem_foldl_addPairs)
              exact ⟨g1, rfl, g2, g3⟩
          | some sid =>
              simp only [hsid]
              obtain ⟨g1, g2, g3⟩ := main
                { Assistant.ghostInserted st p with
                    autoSuppressed :=
                      (Assistant.ghostInserted st p).autoSuppressed ++ [sid] }
                rfl (fun j => mem_foldl_addPairs)
              exact ⟨g1, rfl, g2, g3⟩

/-- A concrete state holding one live ellipse item (a drawn head). -/
def demoEllipseApp : AppState :=
  { scene :=
      { order := [0],
        itemOf := fun _ => { demoItem with geom := .ellipse 0 0 100 100 } },
    stack := {}, ghosts := [], autoSuppressed := [], nextId := 1 }

/-- The proposal dict the wizard returns whenever the context has an
ellipse. -/
def catProposal : Assistant.Proposal :=
  { suggestion := Assistant.CAT_EARS, uncertaintyPct := 70,
    explanation :=
      ["Une ellipse est détectée (tête possible).",
       "Ajout d\x27éléments symétriques au-dessus.",
       "Suggestion optionnelle (à ajuster)."],
    whatToDo := "Appliquez si vous dessinez un chat, sinon ignorez.",
    suggestionId := none }

/-- Witness for C1: a concrete flow over a one-ellipse scene, manual
trigger, user chooses ignore. -/
theorem C1_witness :
    Assistant.propose_suggestion
        (Assistant.buildContext demoEllipseApp .manual none) = some catProposal ∧
    Assistant.Decision.ignore ≠ Assistant.Decision.accept ∧
    (Assistant.trySuggest demoEllipseApp .manual none .ignore).ghosts = [] :=
  ⟨rfl, by decide,
   (C1_rollback demoEllipseApp .manual none .ignore catProposal rfl
     (by decide)).1⟩

/-! ### Claim C4: accept commits the ghosts as one macro -/

theorem UndoStack.macroBegin_macroCmds (stack : UndoStack) :
    stack.macroBegin.macroCmds = some [] := rfl

theorem UndoStack.macroEnd_of_some {stack : UndoStack} {m : List Cmd}
    (h : stack.macroCmds = some m) :
    stack.macroEnd = { stack with done := m :: stack.done, macroCmds := none } := by
  unfold UndoStack.macroEnd
  simp [h]

/-- C4.  When a flow that reached Proposed ends with accept: every
previously-ghost item is in the scene with full opacity, enabled,
selectable and movable; the GhostSet reference is cleared; the Add commands
were grouped as one macro entry on top of the undo stack; and a single
subsequent undo removes exactly the committed items from the scene. -/
theorem C4_accept_commit (st : AppState) (trigger : Assistant.Trigger)
    (createdKind : Option String) (p : Assistant.Proposal)
    (hp : Assistant.propose_suggestion
      (Assistant.buildContext st trigger createdKind) = some p)
    (_hm : st.stack.macroCmds = none) :
    ((Assistant.trySuggest st trigger createdKind .accept).ghosts = []) ∧
    (∀ i ∈ (Assistant.ghostPairs (Assistant.clearGhost st) p).map Prod.fst,
      i ∈ (Assistant.trySuggest st trigger createdKind .accept).scene.order ∧
      ((Assistant.trySuggest st trigger createdKind .accept).scene.itemOf i).opacity = 1 ∧
      ((Assistant.trySuggest st trigger createdKind .accept).scene.itemOf i).enabled = true ∧
      ((Assistant.trySuggest st trigger createdKind .accept).scene.itemOf i).selectable = true ∧
      ((Assistant.trySuggest st trigger createdKind .accept).scene.itemOf i).movable = true) ∧
    ((Assistant.trySuggest st trigger createdKind .accept).stack.done =
      (((Assistant.ghostPairs (Assistant.clearGhost st) p).map Prod.fst).map
        (fun i => Cmd.add i false)) :: st.stack.done) ∧
    (∀ i ∈ (Assistant.ghostPairs (Assistant.clearGhost st) p).map Prod.fst,
      i ∉ ((Assistant.trySuggest st trigger createdKind .accept).stack.undoStep
        (Assistant.trySuggest st trigger createdKind .accept).scene).2.order) ∧
    (∀ j, j ∉ (Assistant.ghostPairs (Assistant.clearGhost st) p).map Prod.fst →
      ((j ∈ ((Assistant.trySuggest st trigger createdKind .accept).stack.undoStep
          (Assistant.trySuggest st trigger createdKind .accept).scene).2.order) ↔
        j ∈ (Assistant.trySuggest st trigger createdKind .accept).scene.order)) := by
  simp only [Assistant.trySuggest, hp]
  obtain ⟨hOrd, hItem, hMacro⟩ := commitFold_spec
    (Assistant.ghostInserted st p).ghosts
    (Assistant.ghostInserted st p).stack.macroBegin
    (Assistant.ghostInserted st p).scene
  obtain ⟨hmac, hdone⟩ := hMacro [] rfl
  have hgh : (Assistant.ghostInserted st p).ghosts =
      (Assistant.ghostPairs (Assistant.clearGhost st) p).map Prod.fst := rfl
  rw [hgh]
  rw [hgh] at hOrd hItem hmac hdone
  have hstack := UndoStack.macroEnd_of_some hmac
  refine ⟨trivial, ?_, ?_, ?_, ?_⟩
  · intro i hi
    refine ⟨?_, ?_, ?_, ?_, ?_⟩
    · rw [hOrd]
      exact mem_foldl_addPairs.mpr (Or.inr hi)
    · rw [hItem i, if_pos hi]; rfl
    · rw [hItem i, if_pos hi]; rfl
    · rw [hItem i, if_pos hi]; rfl
    · rw [hItem i, if_pos hi]; rfl
  · show (UndoStack.macroEnd _).done = _
    rw [hstack]
    simp only [List.nil_append]
    rw [hdone]
    rfl
  · intro i hi
    show i ∉ ((UndoStack.macroEnd _).undoStep _).2.order
    rw [hstack]
    simp only [UndoStack.undoStep, List.nil_append]
    rw [undoEntry_adds, SceneSt.mem_foldl_removeItem]
    rintro ⟨_, hno⟩
    exact hno (List.mem_reverse.mpr hi)
  · intro j hj
    show (j ∈ ((UndoStack.macroEnd _).undoStep _).2.order) ↔ _
    rw [hstack]
    simp only [UndoStack.undoStep, List.nil_append]
    rw [undoEntry_adds, SceneSt.mem_foldl_removeItem]
    constructor
    · exact fun h => h.1
    · intro h
      exact ⟨h, fun hr => hj (List.mem_reverse.mp hr)⟩

/-- Witness for C4 at the concrete one-ellipse state. -/
theorem C4_witness :
    Assistant.propose_suggestion
        (Assistant.buildContext demoEllipseApp .manual none) = some catProposal ∧
    demoEllipseApp.stack.macroCmds = none ∧
    (Assistant.trySuggest demoEllipseApp .manual none .accept).ghosts = [] :=
  ⟨rfl, rfl,
   (C4_accept_commit demoEllipseApp .manual none catProposal rfl rfl).1⟩

/-! ### Claim C7: auto-suppression of repeated suggestions -/

/-- C7 evaluated at its failing session.  A scene holds one ellipse; an
auto-triggered flow proposes the cat-ears suggestion and the user ignores
it.  Afterwards the controller's suppression set is still empty — the
wizard's proposal dict carries no `"suggestion_id"` key, so
`_auto_suppressed` is never populated (and `propose_suggestion` never reads
`auto_suppressed` anyway) — and the very next auto-triggered invocation
proposes the same suggestion identity again, contradicting the claimed
session-wide suppression. -/
theorem C7_auto_resuggests :
    (Assistant.propose_suggestion (Assistant.buildContext demoEllipseApp .auto
        (some "QGraphicsEllipseItem"))).map (fun q => q.suggestion.kind) =
      some .catEars ∧
    (Assistant.trySuggest demoEllipseApp .auto (some "QGraphicsEllipseItem")
        .ignore).autoSuppressed = [] ∧
    (Assistant.propose_suggestion (Assistant.buildContext
        (Assistant.trySuggest demoEllipseApp .auto (some "QGraphicsEllipseItem")
          .ignore)
        .auto (some "QGraphicsPathItem"))).map (fun q => q.suggestion.kind) =
      some .catEars :=
  ⟨rfl, rfl, rfl⟩

/-! ### Claim C10: permanent insertions are selectable and movable -/

/-- C10.  Every non-ghost creation path yields items with the interaction
flags enabled at the moment they become (or are committed as) permanent
scene members: both decoders, the generation catalog, the four interactive
press constructors, and the ghost items once a suggestion flow commits
them. -/
theorem C10_interaction_flags :
    (∀ r i, Serialization.deserialize_item r = .ok (some i) →
      i.selectable = true ∧ i.movable = true) ∧
    (∀ r i, Scene.deserialize_item r = .ok (some i) →
      i.selectable = true ∧ i.movable = true) ∧
    (∀ category itemId, ∀ i ∈ Catalog.create_generation_item category itemId,
      i.selectable = true ∧ i.movable = true) ∧
    (∀ strokeColor fillColor p,
      (Tools.penPressItem strokeColor p).selectable = true ∧
      (Tools.penPressItem strokeColor p).movable = true ∧
      (Tools.linePressItem strokeColor p).selectable = true ∧
      (Tools.linePressItem strokeColor p).movable = true ∧
      (Tools.rectPressItem strokeColor fillColor p).selectable = true ∧
      (Tools.rectPressItem strokeColor fillColor p).movable = true ∧
      (Tools.ellipsePressItem strokeColor fillColor p).selectable = true ∧
      (Tools.ellipsePressItem strokeColor fillColor p).movable = true) ∧
    (∀ st trigger createdKind p,
      Assistant.propose_suggestion
        (Assistant.buildContext st trigger createdKind) = some p →
      ∀ i ∈ (Assistant.ghostPairs (Assistant.clearGhost st) p).map Prod.fst,
        ((Assistant.trySuggest st trigger createdKind .accept).scene.itemOf i).selectable
          = true ∧
        ((Assistant.trySuggest st trigger createdKind .accept).scene.itemOf i).movable
          = true) := by
  refine ⟨?_, ?_, ?_, ?_, ?_⟩
  · intro r i h
    unfold Serialization.deserialize_item at h
    dsimp only at h
    repeat' split at h
    all_goals
      first
      | exact Except.noConfusion h
      | exact Option.noConfusion (Except.ok.inj h)
      | (obtain rfl : _ = i := Option.some.inj (Except.ok.inj h)
         exact ⟨rfl, rfl⟩)
  · intro r i h
    unfold Scene.deserialize_item at h
    dsimp only at h
    repeat' split at h
    all_goals
      first
      | exact Except.noConfusion h
      | exact Option.noConfusion (Except.ok.inj h)
      | (obtain rfl : _ = i := Option.some.inj (Except.ok.inj h)
         exact ⟨rfl, rfl⟩)
  · intro category itemId i hi
    simp only [Catalog.create_generation_item, List.mem_map] at hi
    obtain ⟨x, _, rfl⟩ := hi
    exact ⟨rfl, rfl⟩
  · intro strokeColor fillColor p
    exact ⟨rfl, rfl, rfl, rfl, rfl, rfl, rfl, rfl⟩
  · intro st trigger createdKind p hp i hi
    simp only [Assistant.trySuggest, hp]
    obtain ⟨hOrd, hItem, hMacro⟩ := commitFold_spec
      (Assistant.ghostInserted st p).ghosts
      (Assistant.ghostInserted st p).stack.macroBegin
      (Assistant.ghostInserted st p).scene
    have hgh : (Assistant.ghostInserted st p).ghosts =
        (Assistant.ghostPairs (Assistant.clearGhost st) p).map Prod.fst := rfl
    rw [hgh]
    rw [hgh] at hItem
    constructor
    · show (SceneSt.itemOf _ i).selectable = true
      rw [hItem i, if_pos hi]
      rfl
    · show (SceneSt.itemOf _ i).movable = true
      rw [hItem i, if_pos hi]
      rfl

/-- Witness for C10 at a concrete line record. -/
theorem C10_witness :
    Serialization.deserialize_item
        { rtype := some "QGraphicsLineItem", line := some (0, 0, 5, 5) } =
      .ok (some (Serialization.decodedBase
        { rtype := some "QGraphicsLineItem", line := some (0, 0, 5, 5) }
        (.line 0 0 5 5) .noBrush none)) ∧
    ((Serialization.decodedBase
        { rtype := some "QGraphicsLineItem", line := some (0, 0, 5, 5) }
        (.line 0 0 5 5) .noBrush none).selectable = true ∧
     (Serialization.decodedBase
        { rtype := some "QGraphicsLineItem", line := some (0, 0, 5, 5) }
        (.line 0 0 5 5) .noBrush none).movable = true) :=
  ⟨rfl, C10_interaction_flags.1
    { rtype := some "QGraphicsLineItem", line := some (0, 0, 5, 5) }
    (Serialization.decodedBase
      { rtype := some "QGraphicsLineItem", line := some (0, 0, 5, 5) }
      (.line 0 0 5 5) .noBrush none) rfl⟩

theorem C3_witness :
    redoReady (Cmd.add 0 false) { order := [], itemOf := fun _ => demoItem } ∧
    undoReady (Cmd.add 0 false) { order := [0], itemOf := fun _ => demoItem } ∧
    (viewEq (((Cmd.add 0 false).redo { order := [], itemOf := fun _ => demoItem }).1.undo
        ((Cmd.add 0 false).redo { order := [], itemOf := fun _ => demoItem }).2)
      { order := [], itemOf := fun _ => demoItem } ∧
     viewEq ((Cmd.add 0 false).redo
        ((Cmd.add 0 false).undo { order := [0], itemOf := fun _ => demoItem })).2
      { order := [0], itemOf := fun _ => demoItem }) :=
  ⟨⟨rfl, by simp⟩, ⟨rfl, by simp⟩,
   C3_commands_inverse (Cmd.add 0 false) _ _ ⟨rfl, by simp⟩ ⟨rfl, by simp⟩⟩

end SketchHelper
